import Mathlib

/-!
# PaycellCodeNight digital-wallet backend — verification development

Shallow embedding of the ledger core of the repository: the Wallet /
Transaction / BillSplit domain models (`src/domain`), the SQL-level state
(`wallets`, `transactions`, `bill_splits` tables plus the read-only
`users`, `merchants`, `cashback_rules` tables), and the service-layer
operations `PaymentService.transferMoney` / `processPayment` /
`topUpWallet` / `processQRPayment`, `BillSplitService.createEqualSplit` /
`createWeightedSplit` / `settleBillSplit` / `cancelBillSplit` and
`CashbackService.calculateAndApplyCashback`.

Modelling conventions:
* JavaScript numbers are idealised as exact rationals (`ℚ`); `Math.round`
  becomes `jsRound` (floor of x + 1/2, which is JS round-half-toward-+∞).
* A JS value that may fail the `typeof x === 'number'` test is a
  `JSValue` (number / string / null).
* Each sqlite write call is an atomic unit: a `transaction(operations)`
  bundle is one unit holding several `SqlOp`s, a single `db.run` is one
  unit holding one `SqlOp`.  Storage-fault injection is a fuel counter in
  the `Store`: a unit commits while fuel is positive and raises a storage
  error once it reaches zero (sqlite `BEGIN/COMMIT/ROLLBACK` makes each
  unit all-or-nothing).
* A JS `throw` is `Except.error`; the error value carries the store so
  that writes committed before the throw persist.  Every public service
  method wraps its body in `catchE`, the embedding of its
  `try { ... } catch { return failure }` block.
* Timestamps (`updated_at`, `created_at`, `settled_at`) and the free-text
  `description` metadata are display-only and omitted; cashback validity
  dates are day numbers and `now` is a parameter.
* Generated uuid fragments are parameters (`sOut`, `sIn`, `sfx`, `gen`).
-/

attribute [local semireducible] Rat.sub Rat.add Rat.mul Rat.inv

/-- A JavaScript value in a position where the code tests `typeof`. -/
inductive JSValue : Type
  | num (q : ℚ)
  | str (s : String)
  | null
deriving DecidableEq, Repr

/-- Numeric content of a `JSValue` (0 for non-numbers, used only after
the code has already established the value is a number). -/
def jnum : JSValue → ℚ
  | .num q => q
  | _ => 0

/-- JS `Math.round`: the integer nearest to `q`, halves toward +∞. -/
def jsRound (q : ℚ) : ℤ := ⌊q + 1/2⌋

/-- `Math.round(q * 100) / 100` — round to 2 decimal places, half-up. -/
def round2 (q : ℚ) : ℚ := (jsRound (q * 100) : ℚ) / 100

/-- `q` has at most 2 decimal places ( `q * 100` is an integer). -/
def has2dp (q : ℚ) : Prop := (q * 100).den = 1

instance (q : ℚ) : Decidable (has2dp q) := by unfold has2dp; infer_instance

/-- Transaction `type` column (closed enum from `Transaction.isValidType`). -/
inductive TxType : Type
  | payment | cashback | topup | transfer_out | transfer_in
  | bill_split | split_settlement | refund
deriving DecidableEq, Repr

/-- Transaction `status` column (closed enum from `Transaction.isValidStatus`). -/
inductive TxStatus : Type
  | pending | ok | failed | cancelled
deriving DecidableEq, Repr

/-- The transaction metadata bag, restricted to the keys the core writes
(free-text `description` omitted; `mtype` is the meta key `type` used by
split transfers). -/
structure TxMeta : Type where
  to_user : Option String := none
  from_user : Option String := none
  related_tx : Option String := none
  payment_method : Option String := none
  method : Option String := none
  mtype : Option String := none
  rule_id : Option String := none
  original_tx_id : Option String := none
deriving DecidableEq, Repr

/-- A row of the `transactions` table / the `Transaction` domain model. -/
structure Txn : Type where
  txId : String
  userId : String
  merchantId : Option String
  amount : ℚ
  currency : String
  ttype : TxType
  status : TxStatus
  meta : TxMeta
deriving DecidableEq, Repr

/-- `new Transaction(...)` — the constructor runs `validate()` and throws
on bad data (argument order as in the service call sites). -/
def mkTxn (txId userId : String) (amount : ℚ) (currency : String)
    (ttype : TxType) (status : TxStatus) (merchantId : Option String)
    (meta : TxMeta) : Except String Txn :=
  if txId = "" then .error "Transaction ID is required and must be a string"
  else if userId = "" then .error "User ID is required and must be a string"
  else if amount ≤ 0 then .error "Amount must be a positive number"
  else .ok ⟨txId, userId, merchantId, amount, currency, ttype, status, meta⟩

/-- A row of the `wallets` table / the `Wallet` domain model
(`updated_at` omitted). -/
structure Wallet : Type where
  userId : String
  balance : ℚ
  currency : String
deriving DecidableEq, Repr

/-- `Wallet.hasSufficientFunds(amount)`. -/
def hasSufficientFunds (w : Wallet) (amount : ℚ) : Bool :=
  decide (amount ≤ w.balance)

/-- `Wallet.credit(amount)`: validates, adds, rounds to 2 decimals. -/
def walletCredit (w : Wallet) (amount : ℚ) : Except String Wallet :=
  if amount ≤ 0 then .error "Credit amount must be a positive number"
  else .ok { w with balance := round2 (w.balance + amount) }

/-- `Wallet.debit(amount)`: validates, checks funds, subtracts, rounds. -/
def walletDebit (w : Wallet) (amount : ℚ) : Except String Wallet :=
  if amount ≤ 0 then .error "Debit amount must be a positive number"
  else if w.balance < amount then .error "Insufficient funds"
  else .ok { w with balance := round2 (w.balance - amount) }

/-- BillSplit `status` column (closed enum from `BillSplit.isValidStatus`). -/
inductive SplitStatus : Type
  | pending | settled | cancelled
deriving DecidableEq, Repr

/-- A row of the `bill_splits` table (`created_at` / `settled_at` omitted,
`split_id` assigned at insert time by autoincrement). -/
structure SplitRow : Type where
  splitId : ℕ
  txId : String
  payerUserId : String
  debtorUserId : String
  totalAmount : ℚ
  shareAmount : ℚ
  weight : ℚ
  status : SplitStatus
deriving DecidableEq, Repr

/-- The column data of a `new BillSplit(null, ...)` before its
autoincrement id is assigned. -/
structure SplitData : Type where
  txId : String
  payerUserId : String
  debtorUserId : String
  totalAmount : ℚ
  shareAmount : ℚ
  weight : ℚ
  status : SplitStatus
deriving DecidableEq, Repr

/-- `new BillSplit(null, ...)` — the constructor runs `validate()` and
throws on bad data. -/
def mkBillSplitData (txId payer debtor : String) (total share weight : ℚ)
    (status : SplitStatus) : Except String SplitData :=
  if txId = "" then .error "Transaction ID is required and must be a string"
  else if payer = "" then .error "Payer User ID is required and must be a string"
  else if debtor = "" then .error "Debtor User ID is required and must be a string"
  else if payer = debtor then .error "Payer and debtor cannot be the same user"
  else if total ≤ 0 then .error "Total amount must be a positive number"
  else if share ≤ 0 then .error "Share amount must be a positive number"
  else if total < share then .error "Share amount cannot exceed total amount"
  else if weight ≤ 0 then .error "Weight must be a positive number"
  else .ok ⟨txId, payer, debtor, total, share, weight, status⟩

/-- A row of the `merchants` table (the columns the core reads). -/
structure Merchant : Type where
  merchant_id : String
  name : String
  category : String
deriving DecidableEq, Repr

/-- A row of the `cashback_rules` table (dates as day numbers). -/
structure Rule : Type where
  rule_id : String
  rule_type : String
  category : String
  rate : ℚ
  flat_amount : ℚ
  cap : Option ℚ
  first_time_only : Bool
  starts_at : Option ℕ
  ends_at : Option ℕ
  active : Bool
deriving DecidableEq, Repr

/-- The relational store: the mutable tables (`wallets`, `transactions`,
`bill_splits` with its autoincrement counter) plus the tables the core
only reads (`users` as their ids, `merchants`, `cashback_rules`). -/
structure DB : Type where
  users : List String
  merchants : List Merchant
  cashbackRules : List Rule
  wallets : List Wallet
  transactions : List Txn
  billSplits : List SplitRow
  nextSplitId : ℕ
deriving DecidableEq, Repr

/-- `walletRepository.findByUserId` (sqlite `db.get`, first matching row). -/
def findWallet (db : DB) (userId : String) : Option Wallet :=
  db.wallets.find? (fun w => decide (w.userId = userId))

/-- Balance of a user's wallet, 0 when the wallet row is absent. -/
def balOf (db : DB) (userId : String) : ℚ :=
  match findWallet db userId with
  | some w => w.balance
  | none => 0

/-- `transactionRepository.findById`. -/
def findTxn (db : DB) (txId : String) : Option Txn :=
  db.transactions.find? (fun t => decide (t.txId = txId))

/-- `billSplitRepository.findById`. -/
def findSplit (db : DB) (splitId : ℕ) : Option SplitRow :=
  db.billSplits.find? (fun s => decide (s.splitId = splitId))

/-- `UPDATE wallets SET balance = f(balance) WHERE user_id = uid` —
applies `f` to every matching row, leaves the rest untouched. -/
def updateBalance (l : List Wallet) (uid : String) (f : ℚ → ℚ) : List Wallet :=
  l.map (fun w => if w.userId = uid then { w with balance := f w.balance } else w)

/-- One SQL write statement of the core. -/
inductive SqlOp : Type
  | debit (userId : String) (amount : ℚ)
  | credit (userId : String) (amount : ℚ)
  | insertTxn (t : Txn)
  | insertSplit (d : SplitData)
  | setSplitStatus (splitId : ℕ) (st : SplitStatus)

/-- Effect of one SQL write statement on the store. -/
def applyOp (db : DB) : SqlOp → DB
  | .debit uid a => { db with wallets := updateBalance db.wallets uid (fun b => b - a) }
  | .credit uid a => { db with wallets := updateBalance db.wallets uid (fun b => b + a) }
  | .insertTxn t => { db with transactions := db.transactions ++ [t] }
  | .insertSplit d =>
      { db with
        billSplits := db.billSplits ++
          [⟨db.nextSplitId, d.txId, d.payerUserId, d.debtorUserId,
            d.totalAmount, d.shareAmount, d.weight, d.status⟩],
        nextSplitId := db.nextSplitId + 1 }
  | .setSplitStatus sid st =>
      { db with billSplits :=
          db.billSplits.map (fun s => if s.splitId = sid then { s with status := st } else s) }

/-- Effect of a committed atomic bundle. -/
def applyUnit (db : DB) (u : List SqlOp) : DB := u.foldl applyOp db

/-- The store together with the storage-fault fuel: the number of write
units the storage layer will still accept. -/
abbrev Store := DB × ℕ

/-- Commit one atomic write unit (a `Database.transaction` bundle or a
single `db.run`): all-or-nothing, raising a storage error when the fault
budget is exhausted. -/
def commitUnit (st : Store) (u : List SqlOp) : Except (String × Store) Store :=
  match st.2 with
  | 0 => .error ("storage failure", st)
  | n + 1 => .ok (u.foldl applyOp st.1, n)

/-- Result object shape shared by the payment / split services
(`{success, message, data}` with the data fields flattened). -/
structure Res : Type where
  success : Bool
  message : String := ""
  outTransactionId : Option String := none
  inTransactionId : Option String := none
  transactionId : Option String := none
  amount : Option ℚ := none
  fromUserId : Option String := none
  toUserId : Option String := none
  newBalance : Option ℚ := none
  qrId : Option String := none
  merchantId : Option String := none
  splitId : Option ℕ := none
deriving DecidableEq, Repr

/-- `{ success: false, message }`. -/
def failRes (msg : String) : Res := { success := false, message := msg }

/-- The `try { body } catch { return default }` wrapper of the public
service methods: an uncaught error becomes a failure result, keeping the
writes committed before the throw. -/
def catchE {α : Type} (x : Except (String × Store) (α × Store)) (default : α) :
    Except (String × Store) (α × Store) :=
  match x with
  | .ok v => .ok v
  | .error (_, st) => .ok (default, st)

/-- Final store of a run (committed writes persist across a throw). -/
def runStore {α : Type} (x : Except (String × Store) (α × Store)) : Store :=
  match x with
  | .ok (_, st) => st
  | .error (_, st) => st

/-- Final database of a run. -/
def runDB {α : Type} (x : Except (String × Store) (α × Store)) : DB :=
  (runStore x).1

/-- The `success` flag of a run's result (false if the run threw). -/
def runSuccess (x : Except (String × Store) (Res × Store)) : Bool :=
  match x with
  | .ok (r, _) => r.success
  | .error _ => false

/-! ## PaymentService -/

/-- Body of `PaymentService.transferMoney` (inside its `try`).  `sOut`
and `sIn` are the generated uuid fragments of the two transaction ids. -/
def transferMoneyBody (st : Store) (fromUserId toUserId : String)
    (amount : JSValue) (sOut sIn : String) :
    Except (String × Store) (Res × Store) :=
  if fromUserId = "" ∨ toUserId = "" then
    .ok (failRes "Gonderici ve alici kullanici ID leri gereklidir", st)
  else if fromUserId = toUserId then
    .ok (failRes "Kendinize para gonderemezsiniz", st)
  else
    match amount with
    | .num q =>
      if q ≤ 0 then .ok (failRes "Gecerli bir tutar giriniz", st)
      else
        match findWallet st.1 fromUserId with
        | none => .ok (failRes "Gonderici kullanicinin cuzdani bulunamadi", st)
        | some fromWallet =>
          match findWallet st.1 toUserId with
          | none => .ok (failRes "Alici kullanicinin cuzdani bulunamadi", st)
          | some _ =>
            if hasSufficientFunds fromWallet q = false then
              .ok (failRes "Yetersiz bakiye", st)
            else
              match mkTxn ("TX_OUT_" ++ sOut) fromUserId q "TRY" .transfer_out .ok none
                  { to_user := some toUserId, related_tx := some ("TX_IN_" ++ sIn) } with
              | .error e => .error (e, st)
              | .ok outTransaction =>
                match mkTxn ("TX_IN_" ++ sIn) toUserId q "TRY" .transfer_in .ok none
                    { from_user := some fromUserId, related_tx := some ("TX_OUT_" ++ sOut) } with
                | .error e => .error (e, st)
                | .ok inTransaction =>
                  match commitUnit st
                      [.debit fromUserId q, .credit toUserId q,
                       .insertTxn outTransaction, .insertTxn inTransaction] with
                  | .error e => .error e
                  | .ok st' =>
                    .ok ({ success := true, message := "Transfer basarili",
                           outTransactionId := some ("TX_OUT_" ++ sOut),
                           inTransactionId := some ("TX_IN_" ++ sIn),
                           amount := some q, fromUserId := some fromUserId,
                           toUserId := some toUserId }, st')
    | _ => .ok (failRes "Gecerli bir tutar giriniz", st)

/-- `PaymentService.transferMoney` (body plus its catch-all). -/
def transferMoneyE (st : Store) (fromUserId toUserId : String)
    (amount : JSValue) (sOut sIn : String) :
    Except (String × Store) (Res × Store) :=
  catchE (transferMoneyBody st fromUserId toUserId amount sOut sIn)
    (failRes "Transfer sirasinda bir hata olustu")

/-- Body of `PaymentService.processPayment` (inside its `try`). -/
def processPaymentBody (st : Store) (userId merchantId : String)
    (amount : JSValue) (sfx : String) :
    Except (String × Store) (Res × Store) :=
  if userId = "" ∨ merchantId = "" then
    .ok (failRes "Kullanici ve isyeri ID leri gereklidir", st)
  else
    match amount with
    | .num q =>
      if q ≤ 0 then .ok (failRes "Gecerli bir tutar giriniz", st)
      else
        match findWallet st.1 userId with
        | none => .ok (failRes "Kullanicinin cuzdani bulunamadi", st)
        | some wallet =>
          if hasSufficientFunds wallet q = false then
            .ok (failRes "Yetersiz bakiye", st)
          else
            match mkTxn ("TX_PAY_" ++ sfx) userId q "TRY" .payment .ok (some merchantId)
                { payment_method := some "wallet" } with
            | .error e => .error (e, st)
            | .ok transaction =>
              match commitUnit st [.debit userId q, .insertTxn transaction] with
              | .error e => .error e
              | .ok st' =>
                .ok ({ success := true, message := "Odeme basarili",
                       transactionId := some ("TX_PAY_" ++ sfx),
                       amount := some q, merchantId := some merchantId,
                       newBalance := some (wallet.balance - q) }, st')
    | _ => .ok (failRes "Gecerli bir tutar giriniz", st)

/-- `PaymentService.processPayment` (body plus its catch-all). -/
def processPaymentE (st : Store) (userId merchantId : String)
    (amount : JSValue) (sfx : String) :
    Except (String × Store) (Res × Store) :=
  catchE (processPaymentBody st userId merchantId amount sfx)
    (failRes "Odeme sirasinda bir hata olustu")

/-- Body of `PaymentService.topUpWallet` (inside its `try`). -/
def topUpWalletBody (st : Store) (userId : String) (amount : JSValue)
    (sfx : String) : Except (String × Store) (Res × Store) :=
  match amount with
  | .num q =>
    if q ≤ 0 then .ok (failRes "Gecerli bir tutar giriniz", st)
    else
      match findWallet st.1 userId with
      | none => .ok (failRes "Kullanicinin cuzdani bulunamadi", st)
      | some wallet =>
        match mkTxn ("TX_TOP_" ++ sfx) userId q "TRY" .topup .ok none
            { method := some "bank_transfer" } with
        | .error e => .error (e, st)
        | .ok transaction =>
          match commitUnit st [.credit userId q, .insertTxn transaction] with
          | .error e => .error e
          | .ok st' =>
            .ok ({ success := true, message := "Bakiye yukleme basarili",
                   transactionId := some ("TX_TOP_" ++ sfx),
                   amount := some q,
                   newBalance := some (wallet.balance + q) }, st')
  | _ => .ok (failRes "Gecerli bir tutar giriniz", st)

/-- `PaymentService.topUpWallet` (body plus its catch-all). -/
def topUpWalletE (st : Store) (userId : String) (amount : JSValue)
    (sfx : String) : Except (String × Store) (Res × Store) :=
  catchE (topUpWalletBody st userId amount sfx)
    (failRes "Bakiye yukleme sirasinda bir hata olustu")

/-! ## QR payments -/

/-- The parsed QR payload fields the code reads.  `amount` is the numeric
value of the amount field (`none` when absent, falsy or unparsable by
`parseFloat`); `ts` is the issuance timestamp in epoch milliseconds. -/
structure QrInfo : Type where
  qr_id : Option String := none
  merchant_id : Option String := none
  amount : Option ℚ := none
  ts : Option ℚ := none
deriving DecidableEq, Repr

/-- The `qrData` argument: a JSON string (carried with its parse result)
or an already-parsed object. -/
inductive QrPayload : Type
  | strPayload (parsed : Option QrInfo)
  | objPayload (info : QrInfo)
deriving DecidableEq, Repr

/-- The parsed info of a payload, `none` when string parsing failed. -/
def qrInfoOf : QrPayload → Option QrInfo
  | .strPayload p => p
  | .objPayload i => some i

/-- The part of `PaymentService.processQRPayment` after parsing:
field/amount/expiry validation, then delegation to `processPayment`. -/
def processQRPaymentCore (st : Store) (userId : String) (qrInfo : QrInfo)
    (nowMs : ℚ) (sfx : String) : Except (String × Store) (Res × Store) :=
  match qrInfo.qr_id, qrInfo.merchant_id, qrInfo.amount with
  | some qid, some mid, some a =>
    if qid = "" ∨ mid = "" ∨ a = 0 then
      .ok (failRes "QR kod verisi eksik veya hatali", st)
    else if a ≤ 0 then .ok (failRes "Gecersiz tutar", st)
    else
      if (match qrInfo.ts with
          | some ts => decide (24 < (nowMs - ts) / 3600000)
          | none => false) then
        .ok (failRes "QR kod suresi dolmus", st)
      else
        match processPaymentE st userId mid (.num a) sfx with
        | .error e => .error e
        | .ok (r, st') =>
          if r.success then
            .ok ({ r with
                    message := "QR kod ile odeme basarili",
                    qrId := some qid, merchantId := some mid }, st')
          else .ok (r, st')
  | _, _, _ => .ok (failRes "QR kod verisi eksik veya hatali", st)

/-- Body of `PaymentService.processQRPayment` (inside its `try`). -/
def processQRPaymentBody (st : Store) (userId : String) (qrData : QrPayload)
    (nowMs : ℚ) (sfx : String) : Except (String × Store) (Res × Store) :=
  match qrData with
  | .strPayload none => .ok (failRes "Gecersiz QR kod formati", st)
  | .strPayload (some info) => processQRPaymentCore st userId info nowMs sfx
  | .objPayload info => processQRPaymentCore st userId info nowMs sfx

/-- `PaymentService.processQRPayment` (body plus its catch-all). -/
def processQRPaymentE (st : Store) (userId : String) (qrData : QrPayload)
    (nowMs : ℚ) (sfx : String) : Except (String × Store) (Res × Store) :=
  catchE (processQRPaymentBody st userId qrData nowMs sfx)
    (failRes "QR kod ile odeme sirasinda bir hata olustu")

/-! ## BillSplitService -/

/-- `Array.prototype.map` over a throwing constructor: builds a list of
results, aborting at the first throw. -/
def mapExcept {α β ε : Type} : List α → (α → Except ε β) → Except ε (List β)
  | [], _ => .ok []
  | a :: l, f =>
    match f a with
    | .error e => .error e
    | .ok b =>
      match mapExcept l f with
      | .error e => .error e
      | .ok bs => .ok (b :: bs)

/-- Body of `BillSplitService.createEqualSplit` (inside its `try`);
`debtorUserIds = none` models a non-array payload. -/
def createEqualSplitBody (st : Store) (payerUserId originalTxId : String)
    (debtorUserIds : Option (List String)) :
    Except (String × Store) (Res × Store) :=
  match debtorUserIds with
  | none => .ok (failRes "Gecersiz parametreler", st)
  | some ids =>
    if payerUserId = "" ∨ originalTxId = "" ∨ ids.isEmpty then
      .ok (failRes "Gecersiz parametreler", st)
    else
      let filteredDebtors := ids.filter (fun i => decide (i ≠ payerUserId))
      if filteredDebtors.isEmpty then
        .ok (failRes "En az bir borclu kullanici belirtmelisiniz", st)
      else
        match findTxn st.1 originalTxId with
        | none => .ok (failRes "Orijinal islem bulunamadi", st)
        | some originalTx =>
          if originalTx.userId ≠ payerUserId then
            .ok (failRes "Bu islem size ait degil", st)
          else if ¬ filteredDebtors.all (fun u => decide (u ∈ st.1.users)) then
            .ok (failRes "Bir veya daha fazla kullanici bulunamadi", st)
          else
            let totalUsers : ℕ := filteredDebtors.length + 1
            let shareAmount := round2 (originalTx.amount / totalUsers)
            match mapExcept filteredDebtors (fun debtorUserId =>
                mkBillSplitData originalTxId payerUserId debtorUserId
                  originalTx.amount shareAmount 1 .pending) with
            | .error e => .error (e, st)
            | .ok billSplits =>
              match commitUnit st (billSplits.map SqlOp.insertSplit) with
              | .error e => .error e
              | .ok st' =>
                .ok ({ success := true, message := "Fatura basariyla bolundu",
                       amount := some shareAmount }, st')

/-- `BillSplitService.createEqualSplit` (body plus its catch-all). -/
def createEqualSplitE (st : Store) (payerUserId originalTxId : String)
    (debtorUserIds : Option (List String)) :
    Except (String × Store) (Res × Store) :=
  catchE (createEqualSplitBody st payerUserId originalTxId debtorUserIds)
    (failRes "Fatura bolme sirasinda bir hata olustu")

/-- A `{userId, weight}` element of the weighted-split payload. -/
structure WeightItem : Type where
  userId : String
  weight : JSValue
deriving DecidableEq, Repr

/-- Body of `BillSplitService.createWeightedSplit` (inside its `try`). -/
def createWeightedSplitBody (st : Store) (payerUserId originalTxId : String)
    (debtorWeights : Option (List WeightItem)) :
    Except (String × Store) (Res × Store) :=
  match debtorWeights with
  | none => .ok (failRes "Gecersiz parametreler", st)
  | some items =>
    if payerUserId = "" ∨ originalTxId = "" ∨ items.isEmpty then
      .ok (failRes "Gecersiz parametreler", st)
    else
      let filteredDebtors := items.filter (fun it => decide (it.userId ≠ payerUserId))
      if filteredDebtors.isEmpty then
        .ok (failRes "En az bir borclu kullanici belirtmelisiniz", st)
      else if filteredDebtors.any (fun it =>
          match it.weight with
          | .num w => decide (w ≤ 0)
          | _ => true) then
        .ok (failRes "Tum agirliklar pozitif sayi olmalidir", st)
      else
        match findTxn st.1 originalTxId with
        | none => .ok (failRes "Orijinal islem bulunamadi", st)
        | some originalTx =>
          if originalTx.userId ≠ payerUserId then
            .ok (failRes "Bu islem size ait degil", st)
          else if ¬ filteredDebtors.all (fun it => decide (it.userId ∈ st.1.users)) then
            .ok (failRes "Bir veya daha fazla kullanici bulunamadi", st)
          else
            let totalWeight := (filteredDebtors.map (fun it => jnum it.weight)).sum
            match mapExcept filteredDebtors (fun it =>
                mkBillSplitData originalTxId payerUserId it.userId
                  originalTx.amount
                  (round2 (originalTx.amount * jnum it.weight / totalWeight))
                  (jnum it.weight) .pending) with
            | .error e => .error (e, st)
            | .ok billSplits =>
              match commitUnit st (billSplits.map SqlOp.insertSplit) with
              | .error e => .error e
              | .ok st' =>
                .ok ({ success := true,
                       message := "Fatura basariyla agirlikli olarak bolundu" }, st')

/-- `BillSplitService.createWeightedSplit` (body plus its catch-all). -/
def createWeightedSplitE (st : Store) (payerUserId originalTxId : String)
    (debtorWeights : Option (List WeightItem)) :
    Except (String × Store) (Res × Store) :=
  catchE (createWeightedSplitBody st payerUserId originalTxId debtorWeights)
    (failRes "Agirlikli fatura bolme sirasinda bir hata olustu")

/-- `BillSplitService.transferMoney` — the duplicated internal transfer
used by settlement.  Its `catch` rethrows, so a storage or validation
error propagates to the caller. -/
def splitTransferMoney (st : Store) (fromUserId toUserId : String)
    (amount : ℚ) (sOut sIn : String) :
    Except (String × Store) (Res × Store) :=
  match mkTxn ("TX_SPLIT_" ++ sOut) fromUserId amount "TRY" .bill_split .ok none
      { to_user := some toUserId, related_tx := some ("TX_SPLIT_" ++ sIn),
        mtype := some "split_payment" } with
  | .error e => .error (e, st)
  | .ok outTransaction =>
    match mkTxn ("TX_SPLIT_" ++ sIn) toUserId amount "TRY" .transfer_in .ok none
        { from_user := some fromUserId, related_tx := some ("TX_SPLIT_" ++ sOut),
          mtype := some "split_received" } with
    | .error e => .error (e, st)
    | .ok inTransaction =>
      match commitUnit st
          [.debit fromUserId amount, .credit toUserId amount,
           .insertTxn outTransaction, .insertTxn inTransaction] with
      | .error e => .error e
      | .ok st' =>
        .ok ({ success := true,
               outTransactionId := some ("TX_SPLIT_" ++ sOut),
               inTransactionId := some ("TX_SPLIT_" ++ sIn),
               amount := some amount }, st')

/-- Body of `BillSplitService.settleBillSplit` (inside its `try`).  Note
the only status gate is `split.isSettled()`; the repository `settle`
update is a separate single-statement write after the transfer bundle. -/
def settleBillSplitBody (st : Store) (splitId : ℕ) (payingUserId : String)
    (sOut sIn : String) : Except (String × Store) (Res × Store) :=
  match findSplit st.1 splitId with
  | none => .ok (failRes "Fatura bolunmesi bulunamadi", st)
  | some split =>
    if split.debtorUserId ≠ payingUserId then
      .ok (failRes "Bu bolunmeyi sadece borclu kullanici odeyebilir", st)
    else if split.status = SplitStatus.settled then
      .ok (failRes "Bu fatura bolunmesi zaten odenmis", st)
    else
      if (match findWallet st.1 payingUserId with
          | some w => hasSufficientFunds w split.shareAmount
          | none => false) = false then
        .ok (failRes "Yetersiz bakiye", st)
      else
        match splitTransferMoney st split.debtorUserId split.payerUserId
            split.shareAmount sOut sIn with
        | .error e => .error e
        | .ok (transferResult, st1) =>
          if ¬ transferResult.success then .ok (transferResult, st1)
          else
            match commitUnit st1 [.setSplitStatus splitId .settled] with
            | .error e => .error e
            | .ok st2 =>
              .ok ({ success := true,
                     message := "Fatura bolunmesi basariyla odendi",
                     splitId := some splitId,
                     amount := some split.shareAmount,
                     outTransactionId := transferResult.outTransactionId }, st2)

/-- `BillSplitService.settleBillSplit` (body plus its catch-all). -/
def settleBillSplitE (st : Store) (splitId : ℕ) (payingUserId : String)
    (sOut sIn : String) : Except (String × Store) (Res × Store) :=
  catchE (settleBillSplitBody st splitId payingUserId sOut sIn)
    (failRes "Fatura odeme sirasinda bir hata olustu")

/-- Body of `BillSplitService.cancelBillSplit` (inside its `try`). -/
def cancelBillSplitBody (st : Store) (splitId : ℕ) (userId : String) :
    Except (String × Store) (Res × Store) :=
  match findSplit st.1 splitId with
  | none => .ok (failRes "Fatura bolunmesi bulunamadi", st)
  | some split =>
    if split.payerUserId ≠ userId then
      .ok (failRes "Bu bolunmeyi sadece odeme yapan kullanici iptal edebilir", st)
    else if split.status = SplitStatus.settled then
      .ok (failRes "Odenmis fatura bolunmesi iptal edilemez", st)
    else
      match commitUnit st [.setSplitStatus splitId .cancelled] with
      | .error e => .error e
      | .ok st' => .ok ({ success := true, message := "Fatura bolunmesi iptal edildi" }, st')

/-- `BillSplitService.cancelBillSplit` (body plus its catch-all). -/
def cancelBillSplitE (st : Store) (splitId : ℕ) (userId : String) :
    Except (String × Store) (Res × Store) :=
  catchE (cancelBillSplitBody st splitId userId)
    (failRes "Fatura iptal sirasinda bir hata olustu")

/-! ## CashbackService -/

/-- Date-window clause of the applicable-rules SQL query. -/
def windowOk (r : Rule) (today : ℕ) : Bool :=
  (match r.starts_at with | some s => decide (s ≤ today) | none => true) &&
  (match r.ends_at with | some e => decide (today ≤ e) | none => true)

/-- The `COUNT(*)` of the user's prior cashback transactions whose
metadata `rule_id` matches. -/
def countPriorCashback (db : DB) (userId ruleId : String) : ℕ :=
  (db.transactions.filter (fun t =>
    decide (t.userId = userId) && decide (t.ttype = TxType.cashback) &&
    decide (t.meta.rule_id = some ruleId))).length

/-- `CashbackService.getApplicableCashbackRules`: the SQL filter
(active, category match or wildcard, validity window) followed by the
first-time-only filter. -/
def getApplicableCashbackRules (db : DB) (userId category : String)
    (today : ℕ) : List Rule :=
  (db.cashbackRules.filter (fun r =>
      r.active &&
      (decide (r.category = category) || decide (r.category = "any")) &&
      windowOk r today)).filter
    (fun r =>
      if r.first_time_only then decide (countPriorCashback db userId r.rule_id = 0)
      else true)

/-- `CashbackService.calculateCashbackAmount`: percent with cap (a falsy
cap — absent or 0 — does not clamp), flat, rounded to 2 decimals. -/
def calculateCashbackAmount (rule : Rule) (amount : ℚ) : ℚ :=
  round2 (if rule.rule_type = "percent" then
            match rule.cap with
            | some cap => if cap ≠ 0 ∧ cap < amount * rule.rate then cap else amount * rule.rate
            | none => amount * rule.rate
          else if rule.rule_type = "flat" then rule.flat_amount
          else 0)

/-- Modelled from the spec: the cashback amount as §4.2 words it —
`percent` rules give `amount × rate` "clamped to cap if a cap is set",
`flat` rules the flat amount, rounded to 2 decimals.  Used to compare
the spec sentence with `calculateCashbackAmount` from the source. -/
def specCashbackAmount (rule : Rule) (amount : ℚ) : ℚ :=
  round2 (if rule.rule_type = "percent" then
            match rule.cap with
            | some cap => min (amount * rule.rate) cap
            | none => amount * rule.rate
          else if rule.rule_type = "flat" then rule.flat_amount
          else 0)

/-- The cashback summary returned by `calculateAndApplyCashback`
(`appliedRules` as (rule id, amount) pairs). -/
structure CashbackRes : Type where
  cashbackAmount : ℚ
  applied : Bool
  appliedRules : List (String × ℚ) := []
  message : String := ""
deriving DecidableEq, Repr

/-- The per-rule loop of `calculateAndApplyCashback`: for each rule with
a positive amount, insert the cashback Transaction (one write unit) and
then credit the wallet (a second, separate write unit). -/
def cashbackLoop (st : Store) (userId merchantId : String) (amount : ℚ)
    (paymentTxId : String) (gen : ℕ → String) :
    List Rule → ℕ → ℚ → List (String × ℚ) →
    Except (String × Store) ((ℚ × List (String × ℚ)) × Store)
  | [], _, total, applied => .ok ((total, applied), st)
  | rule :: rest, k, total, applied =>
    let cashbackAmount := calculateCashbackAmount rule amount
    if 0 < cashbackAmount then
      match mkTxn ("TX_CB_" ++ gen k) userId cashbackAmount "TRY" .cashback .ok
          (some merchantId)
          { rule_id := some rule.rule_id, original_tx_id := some paymentTxId } with
      | .error e => .error (e, st)
      | .ok cashbackTx =>
        match commitUnit st [.insertTxn cashbackTx] with
        | .error e => .error e
        | .ok st1 =>
          match commitUnit st1 [.credit userId cashbackAmount] with
          | .error e => .error e
          | .ok st2 =>
            cashbackLoop st2 userId merchantId amount paymentTxId gen rest (k + 1)
              (total + cashbackAmount) (applied ++ [(rule.rule_id, cashbackAmount)])
    else cashbackLoop st userId merchantId amount paymentTxId gen rest k total applied

/-- Body of `CashbackService.calculateAndApplyCashback` (inside its `try`). -/
def calculateAndApplyCashbackBody (st : Store) (userId merchantId : String)
    (amount : ℚ) (paymentTxId : String) (today : ℕ) (gen : ℕ → String) :
    Except (String × Store) (CashbackRes × Store) :=
  match st.1.merchants.find? (fun m => decide (m.merchant_id = merchantId)) with
  | none => .ok ({ cashbackAmount := 0, applied := false }, st)
  | some merchant =>
    match getApplicableCashbackRules st.1 userId merchant.category today with
    | [] => .ok ({ cashbackAmount := 0, applied := false,
                   message := "Gecerli cashback kampanyasi yok" }, st)
    | r :: rs =>
      match cashbackLoop st userId merchantId amount paymentTxId gen (r :: rs) 0 0 [] with
      | .error e => .error e
      | .ok ((total, applied), st') =>
        .ok ({ cashbackAmount := total, applied := decide (0 < total),
               appliedRules := applied,
               message := if 0 < total then "cashback kazandiniz"
                          else "Cashback uygulanamadi" }, st')

/-- `CashbackService.calculateAndApplyCashback` (body plus its catch-all,
which reports zero cashback). -/
def calculateAndApplyCashbackE (st : Store) (userId merchantId : String)
    (amount : ℚ) (paymentTxId : String) (today : ℕ) (gen : ℕ → String) :
    Except (String × Store) (CashbackRes × Store) :=
  catchE (calculateAndApplyCashbackBody st userId merchantId amount paymentTxId today gen)
    { cashbackAmount := 0, applied := false, message := "Cashback hesaplanamadi" }

/-! ## Operation sequences

The six balance-touching core operations, with their inputs and their
storage-fault budgets, as a step relation for the state invariants. -/

/-- One invocation of a balance-touching core operation. -/
inductive Op : Type
  | transfer (fromUserId toUserId : String) (amount : JSValue) (sOut sIn : String) (fuel : ℕ)
  | payment (userId merchantId : String) (amount : JSValue) (sfx : String) (fuel : ℕ)
  | topup (userId : String) (amount : JSValue) (sfx : String) (fuel : ℕ)
  | qr (userId : String) (qrData : QrPayload) (nowMs : ℚ) (sfx : String) (fuel : ℕ)
  | settle (splitId : ℕ) (payingUserId : String) (sOut sIn : String) (fuel : ℕ)
  | cashback (userId merchantId : String) (amount : ℚ) (paymentTxId : String)
      (today : ℕ) (gen : ℕ → String) (fuel : ℕ)

/-- Execute one operation from a database state, keeping whatever the
storage layer committed (also on a storage fault mid-operation). -/
def execOp (db : DB) : Op → DB
  | .transfer f t a so si fuel => runDB (transferMoneyE (db, fuel) f t a so si)
  | .payment u m a sfx fuel => runDB (processPaymentE (db, fuel) u m a sfx)
  | .topup u a sfx fuel => runDB (topUpWalletE (db, fuel) u a sfx)
  | .qr u qrData nowMs sfx fuel => runDB (processQRPaymentE (db, fuel) u qrData nowMs sfx)
  | .settle sid payer so si fuel => runDB (settleBillSplitE (db, fuel) sid payer so si)
  | .cashback u m a ptx today gen fuel =>
      runDB (calculateAndApplyCashbackE (db, fuel) u m a ptx today gen)

/-- Execute a sequence of core operations. -/
def runOps (db : DB) (ops : List Op) : DB := ops.foldl execOp db

/-- Wallet rows have pairwise distinct user ids (`user_id` is the
primary key of `wallets`; no core operation inserts wallet rows). -/
def walletsUnique (db : DB) : Prop :=
  db.wallets.Pairwise (fun a b => a.userId ≠ b.userId)

/-- Every wallet balance is non-negative. -/
def walletsNonneg (db : DB) : Prop := ∀ w ∈ db.wallets, 0 ≤ w.balance

/-- The wallet-table invariant: primary-key uniqueness plus
non-negativity of every balance. -/
def LedgerInv (db : DB) : Prop := walletsUnique db ∧ walletsNonneg db

/-- Every wallet balance and every stored share amount has at most two
decimal places. -/
def Inv2dp (db : DB) : Prop :=
  (∀ w ∈ db.wallets, has2dp w.balance) ∧ (∀ s ∈ db.billSplits, has2dp s.shareAmount)

instance (db : DB) : Decidable (walletsUnique db) := by unfold walletsUnique; infer_instance
instance (db : DB) : Decidable (walletsNonneg db) := by unfold walletsNonneg; infer_instance
instance (db : DB) : Decidable (LedgerInv db) := by unfold LedgerInv; infer_instance
instance (db : DB) : Decidable (Inv2dp db) := by unfold Inv2dp; infer_instance

/-! ## Basic lemmas about the embedding -/

theorem append_ne_empty (p s : String) (h : p.data ≠ []) : p ++ s ≠ "" := by
  intro he
  apply h
  have hd := congrArg String.data he
  rw [String.data_append] at hd
  exact (List.append_eq_nil.mp hd).1

theorem mkTxn_ok_iff {txId userId : String} {amount : ℚ} {currency : String}
    {ttype : TxType} {status : TxStatus} {merchantId : Option String}
    {meta : TxMeta} {t : Txn} :
    mkTxn txId userId amount currency ttype status merchantId meta = .ok t ↔
      txId ≠ "" ∧ userId ≠ "" ∧ 0 < amount ∧
        t = ⟨txId, userId, merchantId, amount, currency, ttype, status, meta⟩ := by
  unfold mkTxn
  split_ifs with h1 h2 h3 <;>
    simp_all [not_le, eq_comm]

theorem mkBillSplitData_ok_iff {txId payer debtor : String}
    {total share weight : ℚ} {status : SplitStatus} {d : SplitData} :
    mkBillSplitData txId payer debtor total share weight status = .ok d ↔
      txId ≠ "" ∧ payer ≠ "" ∧ debtor ≠ "" ∧ payer ≠ debtor ∧ 0 < total ∧
        0 < share ∧ share ≤ total ∧ 0 < weight ∧
        d = ⟨txId, payer, debtor, total, share, weight, status⟩ := by
  unfold mkBillSplitData
  split_ifs with h1 h2 h3 h4 h5 h6 h7 h8 <;>
    simp_all [not_le, not_lt, eq_comm]

theorem commitUnit_ok {st st' : Store} {u : List SqlOp}
    (h : commitUnit st u = .ok st') :
    st'.1 = applyUnit st.1 u ∧ st.2 = st'.2 + 1 := by
  obtain ⟨db, fuel⟩ := st
  cases fuel with
  | zero => simp [commitUnit] at h
  | succ n =>
      simp only [commitUnit, Except.ok.injEq] at h
      rw [← h]
      exact ⟨rfl, rfl⟩

theorem commitUnit_error {st : Store} {u : List SqlOp} {e : String × Store}
    (h : commitUnit st u = .error e) : e = ("storage failure", st) ∧ st.2 = 0 := by
  obtain ⟨db, fuel⟩ := st
  cases fuel with
  | zero => simp only [commitUnit] at h; cases h; exact ⟨rfl, rfl⟩
  | succ n => simp [commitUnit] at h

theorem updateBalance_userId (w : Wallet) (uid : String) (f : ℚ → ℚ) :
    (if w.userId = uid then { w with balance := f w.balance } else w).userId = w.userId := by
  split <;> rfl

theorem updateBalance_pairwise {l : List Wallet} {uid : String} {f : ℚ → ℚ}
    (h : l.Pairwise (fun a b => a.userId ≠ b.userId)) :
    (updateBalance l uid f).Pairwise (fun a b => a.userId ≠ b.userId) := by
  unfold updateBalance
  rw [List.pairwise_map]
  refine h.imp ?_
  intro a b hab
  simpa [updateBalance_userId] using hab

theorem mem_updateBalance {l : List Wallet} {uid : String} {f : ℚ → ℚ} {w' : Wallet}
    (h : w' ∈ updateBalance l uid f) :
    ∃ w ∈ l, w' = if w.userId = uid then { w with balance := f w.balance } else w := by
  unfold updateBalance at h
  obtain ⟨w, hw, rfl⟩ := List.mem_map.mp h
  exact ⟨w, hw, rfl⟩

theorem find_unique : ∀ {l : List Wallet} {uid : String} {w0 : Wallet},
    l.Pairwise (fun a b => a.userId ≠ b.userId) →
    l.find? (fun w => decide (w.userId = uid)) = some w0 →
    ∀ w ∈ l, w.userId = uid → w = w0 := by
  intro l
  induction l with
  | nil => intro uid w0 _ hf; simp at hf
  | cons x xs ih =>
    intro uid w0 hp hf w hw huid
    rw [List.pairwise_cons] at hp
    by_cases hx : x.userId = uid
    · rw [List.find?_cons_of_pos _ (by simp [hx]), Option.some.injEq] at hf
      rcases List.mem_cons.mp hw with rfl | hmem
      · exact hf
      · have h1 : x.userId ≠ w.userId := hp.1 w hmem
        rw [hx] at h1
        exact absurd huid (fun hh => h1 hh.symm)
    · rw [List.find?_cons_of_neg _ (by simp [hx])] at hf
      rcases List.mem_cons.mp hw with rfl | hmem
      · exact absurd huid hx
      · exact ih hp.2 hf w hmem huid

theorem find?_updateBalance_self (l : List Wallet) (uid : String) (f : ℚ → ℚ) :
    (updateBalance l uid f).find? (fun w => decide (w.userId = uid)) =
      (l.find? (fun w => decide (w.userId = uid))).map
        (fun w => { w with balance := f w.balance }) := by
  induction l with
  | nil => rfl
  | cons x xs ih =>
    simp only [updateBalance, List.map_cons]
    by_cases hx : x.userId = uid
    · rw [if_pos hx, List.find?_cons_of_pos _ (by simp [hx]),
        List.find?_cons_of_pos _ (by simp [hx])]
      rfl
    · rw [if_neg hx, List.find?_cons_of_neg _ (by simp [hx]),
        List.find?_cons_of_neg _ (by simp [hx])]
      exact ih

theorem find?_updateBalance_other (l : List Wallet) (uid uid' : String) (f : ℚ → ℚ)
    (h : uid ≠ uid') :
    (updateBalance l uid' f).find? (fun w => decide (w.userId = uid)) =
      l.find? (fun w => decide (w.userId = uid)) := by
  induction l with
  | nil => rfl
  | cons x xs ih =>
    simp only [updateBalance, List.map_cons]
    by_cases hx : x.userId = uid'
    · have hxu : ¬ x.userId = uid := by rw [hx]; exact fun he => h he.symm
      rw [if_pos hx, List.find?_cons_of_neg _ (by simp [hxu]),
        List.find?_cons_of_neg _ (by simp [hxu])]
      exact ih
    · by_cases hxu : x.userId = uid
      · rw [if_neg hx, List.find?_cons_of_pos _ (by simp [hxu]),
          List.find?_cons_of_pos _ (by simp [hxu])]
      · rw [if_neg hx, List.find?_cons_of_neg _ (by simp [hxu]),
          List.find?_cons_of_neg _ (by simp [hxu])]
        exact ih

theorem nonneg_credit {l : List Wallet} {uid : String} {a : ℚ}
    (h : ∀ w ∈ l, 0 ≤ w.balance) (ha : 0 ≤ a) :
    ∀ w ∈ updateBalance l uid (fun b => b + a), 0 ≤ w.balance := by
  intro w' hw'
  obtain ⟨w, hw, rfl⟩ := mem_updateBalance hw'
  split
  · exact add_nonneg (h w hw) ha
  · exact h w hw

theorem nonneg_debit {l : List Wallet} {uid : String} {a : ℚ} {w0 : Wallet}
    (hu : l.Pairwise (fun x y => x.userId ≠ y.userId))
    (h : ∀ w ∈ l, 0 ≤ w.balance)
    (hf : l.find? (fun w => decide (w.userId = uid)) = some w0)
    (ha : a ≤ w0.balance) :
    ∀ w ∈ updateBalance l uid (fun b => b - a), 0 ≤ w.balance := by
  intro w' hw'
  obtain ⟨w, hw, rfl⟩ := mem_updateBalance hw'
  by_cases hid : w.userId = uid
  · have hww0 : w = w0 := find_unique hu hf w hw hid
    subst hww0
    simp only [hid, if_true]
    linarith
  · simp only [hid, if_false]
    exact h w hw

theorem has2dp_iff {q : ℚ} : has2dp q ↔ ∃ z : ℤ, q = (z : ℚ) / 100 := by
  constructor
  · intro h
    refine ⟨(q * 100).num, ?_⟩
    have hnum : ((q * 100).num : ℚ) = q * 100 := (Rat.den_eq_one_iff _).mp h
    rw [hnum]
    field_simp
  · rintro ⟨z, rfl⟩
    unfold has2dp
    rw [div_mul_cancel₀ _ (by norm_num : (100 : ℚ) ≠ 0)]
    exact Rat.den_intCast z

theorem has2dp_add {x y : ℚ} (hx : has2dp x) (hy : has2dp y) : has2dp (x + y) := by
  rw [has2dp_iff] at *
  obtain ⟨a, rfl⟩ := hx
  obtain ⟨b, rfl⟩ := hy
  exact ⟨a + b, by push_cast; ring⟩

theorem has2dp_sub {x y : ℚ} (hx : has2dp x) (hy : has2dp y) : has2dp (x - y) := by
  rw [has2dp_iff] at *
  obtain ⟨a, rfl⟩ := hx
  obtain ⟨b, rfl⟩ := hy
  exact ⟨a - b, by push_cast; ring⟩

theorem has2dp_round2 (q : ℚ) : has2dp (round2 q) :=
  has2dp_iff.mpr ⟨jsRound (q * 100), rfl⟩

theorem jsRound_close (q : ℚ) : |(jsRound q : ℚ) - q| ≤ 1 / 2 := by
  unfold jsRound
  rw [abs_le]
  constructor
  · have h := Int.sub_one_lt_floor (q + 1 / 2)
    push_cast at h ⊢
    linarith
  · have h := Int.floor_le (q + 1 / 2)
    push_cast at h ⊢
    linarith

theorem round2_close (q : ℚ) : |round2 q - q| ≤ 1 / 200 := by
  unfold round2
  have h := jsRound_close (q * 100)
  have he : (jsRound (q * 100) : ℚ) / 100 - q = ((jsRound (q * 100) : ℚ) - q * 100) / 100 := by
    ring
  rw [he, abs_div, abs_of_pos (by norm_num : (0 : ℚ) < 100)]
  linarith

theorem sum_map_round2_close : ∀ l : List ℚ,
    |(l.map round2).sum - l.sum| ≤ (l.length : ℚ) * (1 / 200) := by
  intro l
  induction l with
  | nil => simp
  | cons x xs ih =>
    simp only [List.map_cons, List.sum_cons, List.length_cons]
    have h1 := round2_close x
    have he : round2 x + (xs.map round2).sum - (x + xs.sum) =
        (round2 x - x) + ((xs.map round2).sum - xs.sum) := by ring
    rw [he]
    calc |(round2 x - x) + ((xs.map round2).sum - xs.sum)|
        ≤ |round2 x - x| + |(xs.map round2).sum - xs.sum| := abs_add _ _
      _ ≤ 1 / 200 + (xs.length : ℚ) * (1 / 200) := by linarith
      _ = ((xs.length : ℚ) + 1) * (1 / 200) := by ring
      _ = ((xs.length + 1 : ℕ) : ℚ) * (1 / 200) := by push_cast; ring

theorem mapExcept_ok {α β ε : Type} {f : α → Except ε β} {g : α → β}
    (hg : ∀ a b, f a = .ok b → b = g a) :
    ∀ {l : List α} {bs : List β}, mapExcept l f = .ok bs →
      bs = l.map g ∧ ∀ a ∈ l, f a = .ok (g a) := by
  intro l
  induction l with
  | nil =>
    intro bs h
    simp only [mapExcept] at h
    cases h
    simp
  | cons x xs ih =>
    intro bs h
    unfold mapExcept at h
    cases hfx : f x with
    | error e => rw [hfx] at h; cases h
    | ok b =>
      rw [hfx] at h
      cases hrest : mapExcept xs f with
      | error e => rw [hrest] at h; cases h
      | ok bs' =>
        rw [hrest] at h
        cases h
        obtain ⟨h1, h2⟩ := ih hrest
        have hb := hg x b hfx
        subst hb h1
        refine ⟨rfl, ?_⟩
        intro a ha
        rcases List.mem_cons.mp ha with rfl | hmem
        · exact hfx
        · exact h2 a hmem

/-- Row assignment performed by a batch of `insertSplit` statements:
consecutive autoincrement ids starting at `n`. -/
def assignIds (n : ℕ) : List SplitData → List SplitRow
  | [] => []
  | d :: ds =>
      ⟨n, d.txId, d.payerUserId, d.debtorUserId, d.totalAmount, d.shareAmount,
       d.weight, d.status⟩ :: assignIds (n + 1) ds

theorem applyUnit_insertSplits : ∀ (datas : List SplitData) (db : DB),
    applyUnit db (datas.map SqlOp.insertSplit) =
      { db with billSplits := db.billSplits ++ assignIds db.nextSplitId datas,
                nextSplitId := db.nextSplitId + datas.length } := by
  intro datas
  induction datas with
  | nil => intro db; simp [applyUnit, assignIds]
  | cons d ds ih =>
    intro db
    simp only [List.map_cons, applyUnit, List.foldl_cons] at ih ⊢
    rw [ih]
    simp [applyOp, assignIds, List.length_cons]
    omega

theorem applyOp_fixed (db : DB) (op : SqlOp) :
    (applyOp db op).users = db.users ∧ (applyOp db op).merchants = db.merchants ∧
      (applyOp db op).cashbackRules = db.cashbackRules := by
  cases op <;> exact ⟨rfl, rfl, rfl⟩

/-! ## Run characterizations of the operations -/

theorem runStore_catchE {α : Type} (x : Except (String × Store) (α × Store)) (d : α) :
    runStore (catchE x d) = runStore x := by
  cases x with
  | ok v => rfl
  | error e => obtain ⟨e1, e2⟩ := e; rfl

theorem runDB_catchE {α : Type} (x : Except (String × Store) (α × Store)) (d : α) :
    runDB (catchE x d) = runDB x := by
  unfold runDB
  rw [runStore_catchE]

theorem runSuccess_catchE (x : Except (String × Store) (Res × Store)) (m : String) :
    runSuccess (catchE x (failRes m)) = runSuccess x := by
  cases x with
  | ok v => rfl
  | error e => obtain ⟨e1, e2⟩ := e; rfl

/-- The `transfer_out` record written by a successful transfer. -/
def outTxnOf (fromUserId toUserId : String) (q : ℚ) (sOut sIn : String) : Txn :=
  ⟨"TX_OUT_" ++ sOut, fromUserId, none, q, "TRY", .transfer_out, .ok,
   { to_user := some toUserId, related_tx := some ("TX_IN_" ++ sIn) }⟩

/-- The `transfer_in` record written by a successful transfer. -/
def inTxnOf (fromUserId toUserId : String) (q : ℚ) (sOut sIn : String) : Txn :=
  ⟨"TX_IN_" ++ sIn, toUserId, none, q, "TRY", .transfer_in, .ok,
   { from_user := some fromUserId, related_tx := some ("TX_OUT_" ++ sOut) }⟩

/-- A `transferMoney` run either fails leaving the store untouched, or
succeeds having committed exactly the four-statement bundle under the
checked preconditions. -/
theorem transferMoneyE_cases (st : Store) (f t : String) (a : JSValue) (so si : String) :
    (runSuccess (transferMoneyE st f t a so si) = false ∧
      runStore (transferMoneyE st f t a so si) = st) ∨
    (runSuccess (transferMoneyE st f t a so si) = true ∧
      ∃ q fw tw, a = .num q ∧ 0 < q ∧ f ≠ "" ∧ t ≠ "" ∧ f ≠ t ∧
        findWallet st.1 f = some fw ∧ findWallet st.1 t = some tw ∧ q ≤ fw.balance ∧
        runStore (transferMoneyE st f t a so si) =
          (applyUnit st.1 [.debit f q, .credit t q,
            .insertTxn (outTxnOf f t q so si), .insertTxn (inTxnOf f t q so si)],
           st.2 - 1) ∧ st.2 ≠ 0) := by
  unfold transferMoneyE
  rw [runSuccess_catchE, runStore_catchE]
  unfold transferMoneyBody
  by_cases h1 : f = "" ∨ t = ""
  · rw [if_pos h1]; left; exact ⟨rfl, rfl⟩
  · rw [if_neg h1]
    push_neg at h1
    by_cases h2 : f = t
    · rw [if_pos h2]; left; exact ⟨rfl, rfl⟩
    · rw [if_neg h2]
      cases a with
      | str s => left; exact ⟨rfl, rfl⟩
      | null => left; exact ⟨rfl, rfl⟩
      | num q =>
        dsimp only
        by_cases h3 : q ≤ 0
        · rw [if_pos h3]; left; exact ⟨rfl, rfl⟩
        · rw [if_neg h3]
          cases hfw : findWallet st.1 f with
          | none => left; exact ⟨rfl, rfl⟩
          | some fw =>
            dsimp only
            cases htw : findWallet st.1 t with
            | none => left; exact ⟨rfl, rfl⟩
            | some tw =>
              dsimp only
              by_cases h4 : hasSufficientFunds fw q = false
              · rw [if_pos h4]; left; exact ⟨rfl, rfl⟩
              · rw [if_neg h4]
                have hq : 0 < q := not_le.mp h3
                have hqb : q ≤ fw.balance := by
                  have := eq_true_of_ne_false h4
                  unfold hasSufficientFunds at this
                  exact of_decide_eq_true this
                have hout : mkTxn ("TX_OUT_" ++ so) f q "TRY" .transfer_out .ok none
                    { to_user := some t, related_tx := some ("TX_IN_" ++ si) } =
                      .ok (outTxnOf f t q so si) :=
                  mkTxn_ok_iff.mpr ⟨append_ne_empty _ _ (by decide), h1.1, hq, rfl⟩
                have hin : mkTxn ("TX_IN_" ++ si) t q "TRY" .transfer_in .ok none
                    { from_user := some f, related_tx := some ("TX_OUT_" ++ so) } =
                      .ok (inTxnOf f t q so si) :=
                  mkTxn_ok_iff.mpr ⟨append_ne_empty _ _ (by decide), h1.2, hq, rfl⟩
                rw [hout, hin]
                obtain ⟨db, fuel⟩ := st
                cases fuel with
                | zero => left; exact ⟨rfl, rfl⟩
                | succ n =>
                  right
                  refine ⟨rfl, q, fw, tw, rfl, hq, h1.1, h1.2, h2, rfl, rfl, hqb, rfl, ?_⟩
                  omega

/-- The `payment` record written by a successful payment. -/
def payTxnOf (userId merchantId : String) (q : ℚ) (sfx : String) : Txn :=
  ⟨"TX_PAY_" ++ sfx, userId, some merchantId, q, "TRY", .payment, .ok,
   { payment_method := some "wallet" }⟩

/-- A `processPayment` run either fails leaving the store untouched, or
succeeds having committed its two-statement bundle. -/
theorem processPaymentE_cases (st : Store) (u m : String) (a : JSValue) (sfx : String) :
    (runSuccess (processPaymentE st u m a sfx) = false ∧
      runStore (processPaymentE st u m a sfx) = st) ∨
    (runSuccess (processPaymentE st u m a sfx) = true ∧
      ∃ q w, a = .num q ∧ 0 < q ∧ u ≠ "" ∧ m ≠ "" ∧
        findWallet st.1 u = some w ∧ q ≤ w.balance ∧
        runStore (processPaymentE st u m a sfx) =
          (applyUnit st.1 [.debit u q, .insertTxn (payTxnOf u m q sfx)], st.2 - 1) ∧
        st.2 ≠ 0) := by
  unfold processPaymentE
  rw [runSuccess_catchE, runStore_catchE]
  unfold processPaymentBody
  by_cases h1 : u = "" ∨ m = ""
  · rw [if_pos h1]; left; exact ⟨rfl, rfl⟩
  · rw [if_neg h1]
    push_neg at h1
    cases a with
    | str s => left; exact ⟨rfl, rfl⟩
    | null => left; exact ⟨rfl, rfl⟩
    | num q =>
      dsimp only
      by_cases h3 : q ≤ 0
      · rw [if_pos h3]; left; exact ⟨rfl, rfl⟩
      · rw [if_neg h3]
        cases hw : findWallet st.1 u with
        | none => left; exact ⟨rfl, rfl⟩
        | some w =>
          dsimp only
          by_cases h4 : hasSufficientFunds w q = false
          · rw [if_pos h4]; left; exact ⟨rfl, rfl⟩
          · rw [if_neg h4]
            have hq : 0 < q := not_le.mp h3
            have hqb : q ≤ w.balance := by
              have := eq_true_of_ne_false h4
              unfold hasSufficientFunds at this
              exact of_decide_eq_true this
            have hmk : mkTxn ("TX_PAY_" ++ sfx) u q "TRY" .payment .ok (some m)
                { payment_method := some "wallet" } = .ok (payTxnOf u m q sfx) :=
              mkTxn_ok_iff.mpr ⟨append_ne_empty _ _ (by decide), h1.1, hq, rfl⟩
            rw [hmk]
            obtain ⟨db, fuel⟩ := st
            cases fuel with
            | zero => left; exact ⟨rfl, rfl⟩
            | succ n =>
              right
              refine ⟨rfl, q, w, rfl, hq, h1.1, h1.2, rfl, hqb, rfl, ?_⟩
              omega

/-- The `topup` record written by a successful top-up. -/
def topTxnOf (userId : String) (q : ℚ) (sfx : String) : Txn :=
  ⟨"TX_TOP_" ++ sfx, userId, none, q, "TRY", .topup, .ok,
   { method := some "bank_transfer" }⟩

/-- A `topUpWallet` run either fails leaving the store untouched, or
succeeds having committed its two-statement bundle. -/
theorem topUpWalletE_cases (st : Store) (u : String) (a : JSValue) (sfx : String) :
    (runSuccess (topUpWalletE st u a sfx) = false ∧
      runStore (topUpWalletE st u a sfx) = st) ∨
    (runSuccess (topUpWalletE st u a sfx) = true ∧
      ∃ q w, a = .num q ∧ 0 < q ∧ findWallet st.1 u = some w ∧
        runStore (topUpWalletE st u a sfx) =
          (applyUnit st.1 [.credit u q, .insertTxn (topTxnOf u q sfx)], st.2 - 1) ∧
        st.2 ≠ 0) := by
  unfold topUpWalletE
  rw [runSuccess_catchE, runStore_catchE]
  unfold topUpWalletBody
  cases a with
  | str s => left; exact ⟨rfl, rfl⟩
  | null => left; exact ⟨rfl, rfl⟩
  | num q =>
    dsimp only
    by_cases h3 : q ≤ 0
    · rw [if_pos h3]; left; exact ⟨rfl, rfl⟩
    · rw [if_neg h3]
      cases hw : findWallet st.1 u with
      | none => left; exact ⟨rfl, rfl⟩
      | some w =>
        dsimp only
        have hq : 0 < q := not_le.mp h3
        by_cases hu : u = ""
        · have hmk : mkTxn ("TX_TOP_" ++ sfx) u q "TRY" .topup .ok none
              { method := some "bank_transfer" } =
                .error "User ID is required and must be a string" := by
            unfold mkTxn
            rw [if_neg (append_ne_empty _ _ (by decide)), if_pos hu]
          rw [hmk]
          left; exact ⟨rfl, rfl⟩
        · have hmk : mkTxn ("TX_TOP_" ++ sfx) u q "TRY" .topup .ok none
              { method := some "bank_transfer" } = .ok (topTxnOf u q sfx) :=
            mkTxn_ok_iff.mpr ⟨append_ne_empty _ _ (by decide), hu, hq, rfl⟩
          rw [hmk]
          obtain ⟨db, fuel⟩ := st
          cases fuel with
          | zero => left; exact ⟨rfl, rfl⟩
          | succ n =>
            right
            refine ⟨rfl, q, w, rfl, hq, rfl, rfl, ?_⟩
            omega

/-- A `processQRPayment` run either fails leaving the store untouched,
or runs exactly as the delegated `processPayment` call on the payload's
merchant and parsed amount. -/
theorem processQRPaymentE_cases (st : Store) (u : String) (qrData : QrPayload)
    (nowMs : ℚ) (sfx : String) :
    (runSuccess (processQRPaymentE st u qrData nowMs sfx) = false ∧
      runStore (processQRPaymentE st u qrData nowMs sfx) = st) ∨
    (∃ info a mid, qrInfoOf qrData = some info ∧ info.amount = some a ∧
      info.merchant_id = some mid ∧
      runSuccess (processQRPaymentE st u qrData nowMs sfx) =
        runSuccess (processPaymentE st u mid (.num a) sfx) ∧
      runStore (processQRPaymentE st u qrData nowMs sfx) =
        runStore (processPaymentE st u mid (.num a) sfx)) := by
  unfold processQRPaymentE
  rw [runSuccess_catchE, runStore_catchE]
  unfold processQRPaymentBody
  have hcore : ∀ info : QrInfo, qrInfoOf qrData = some info →
      (runSuccess (processQRPaymentCore st u info nowMs sfx) = false ∧
        runStore (processQRPaymentCore st u info nowMs sfx) = st) ∨
      (∃ a mid, info.amount = some a ∧ info.merchant_id = some mid ∧
        runSuccess (processQRPaymentCore st u info nowMs sfx) =
          runSuccess (processPaymentE st u mid (.num a) sfx) ∧
        runStore (processQRPaymentCore st u info nowMs sfx) =
          runStore (processPaymentE st u mid (.num a) sfx)) := by
    intro info _
    unfold processQRPaymentCore
    cases hq : info.qr_id with
    | none => left; exact ⟨rfl, rfl⟩
    | some qid =>
      cases hm : info.merchant_id with
      | none => left; exact ⟨rfl, rfl⟩
      | some mid =>
        cases ha : info.amount with
        | none => left; exact ⟨rfl, rfl⟩
        | some a =>
          dsimp only
          by_cases h1 : qid = "" ∨ mid = "" ∨ a = 0
          · rw [if_pos h1]; left; exact ⟨rfl, rfl⟩
          · rw [if_neg h1]
            by_cases h2 : a ≤ 0
            · rw [if_pos h2]; left; exact ⟨rfl, rfl⟩
            · rw [if_neg h2]
              by_cases h3 : (match info.ts with
                  | some ts => decide (24 < (nowMs - ts) / 3600000)
                  | none => false) = true
              · rw [if_pos h3]; left; exact ⟨rfl, rfl⟩
              · rw [if_neg h3]
                right
                refine ⟨a, mid, rfl, rfl, ?_⟩
                cases hr : processPaymentE st u mid (.num a) sfx with
                | error e =>
                  obtain ⟨e1, e2⟩ := e
                  exact ⟨rfl, rfl⟩
                | ok v =>
                  obtain ⟨r, st'⟩ := v
                  by_cases hs : r.success
                  · simp only [hs, if_true]
                    exact ⟨by simp [runSuccess, hs], rfl⟩
                  · simp only [hs, if_false]
                    exact ⟨rfl, rfl⟩
  cases qrData with
  | strPayload p =>
    cases p with
    | none => left; exact ⟨rfl, rfl⟩
    | some info =>
      rcases hcore info rfl with h | ⟨a, mid, h1, h2, h3, h4⟩
      · left; exact h
      · right; exact ⟨info, a, mid, rfl, h1, h2, h3, h4⟩
  | objPayload info =>
    rcases hcore info rfl with h | ⟨a, mid, h1, h2, h3, h4⟩
    · left; exact h
    · right; exact ⟨info, a, mid, rfl, h1, h2, h3, h4⟩

/-- The `bill_split` record written by a split settlement transfer. -/
def splitOutTxnOf (fromUserId toUserId : String) (amt : ℚ) (so si : String) : Txn :=
  ⟨"TX_SPLIT_" ++ so, fromUserId, none, amt, "TRY", .bill_split, .ok,
   { to_user := some toUserId, related_tx := some ("TX_SPLIT_" ++ si),
     mtype := some "split_payment" }⟩

/-- The `transfer_in` record written by a split settlement transfer. -/
def splitInTxnOf (fromUserId toUserId : String) (amt : ℚ) (so si : String) : Txn :=
  ⟨"TX_SPLIT_" ++ si, toUserId, none, amt, "TRY", .transfer_in, .ok,
   { from_user := some fromUserId, related_tx := some ("TX_SPLIT_" ++ so),
     mtype := some "split_received" }⟩

/-- The four-statement bundle of a split settlement transfer. -/
def settleXferUnit (fromUserId toUserId : String) (amt : ℚ) (so si : String) :
    List SqlOp :=
  [.debit fromUserId amt, .credit toUserId amt,
   .insertTxn (splitOutTxnOf fromUserId toUserId amt so si),
   .insertTxn (splitInTxnOf fromUserId toUserId amt so si)]

/-- The internal split transfer either throws with the store untouched,
or commits exactly its four-statement bundle and reports success. -/
theorem splitTransferMoney_cases (st : Store) (f t : String) (amt : ℚ) (so si : String) :
    (∃ e, splitTransferMoney st f t amt so si = .error (e, st)) ∨
    (0 < amt ∧ f ≠ "" ∧ t ≠ "" ∧ st.2 ≠ 0 ∧
      splitTransferMoney st f t amt so si =
        .ok ({ success := true,
               outTransactionId := some ("TX_SPLIT_" ++ so),
               inTransactionId := some ("TX_SPLIT_" ++ si),
               amount := some amt },
             (applyUnit st.1 (settleXferUnit f t amt so si), st.2 - 1))) := by
  unfold splitTransferMoney
  by_cases hf : f = ""
  · left
    refine ⟨"User ID is required and must be a string", ?_⟩
    have h1 : mkTxn ("TX_SPLIT_" ++ so) f amt "TRY" .bill_split .ok none
        { to_user := some t, related_tx := some ("TX_SPLIT_" ++ si),
          mtype := some "split_payment" } =
          .error "User ID is required and must be a string" := by
      unfold mkTxn
      rw [if_neg (append_ne_empty _ _ (by decide)), if_pos hf]
    rw [h1]
  · by_cases hamt : amt ≤ 0
    · left
      refine ⟨"Amount must be a positive number", ?_⟩
      have h1 : mkTxn ("TX_SPLIT_" ++ so) f amt "TRY" .bill_split .ok none
          { to_user := some t, related_tx := some ("TX_SPLIT_" ++ si),
            mtype := some "split_payment" } =
            .error "Amount must be a positive number" := by
        unfold mkTxn
        rw [if_neg (append_ne_empty _ _ (by decide)), if_neg hf, if_pos hamt]
      rw [h1]
    · have hq : 0 < amt := not_le.mp hamt
      have hout : mkTxn ("TX_SPLIT_" ++ so) f amt "TRY" .bill_split .ok none
          { to_user := some t, related_tx := some ("TX_SPLIT_" ++ si),
            mtype := some "split_payment" } =
            .ok (splitOutTxnOf f t amt so si) :=
        mkTxn_ok_iff.mpr ⟨append_ne_empty _ _ (by decide), hf, hq, rfl⟩
      rw [hout]
      by_cases ht : t = ""
      · left
        refine ⟨"User ID is required and must be a string", ?_⟩
        have h1 : mkTxn ("TX_SPLIT_" ++ si) t amt "TRY" .transfer_in .ok none
            { from_user := some f, related_tx := some ("TX_SPLIT_" ++ so),
              mtype := some "split_received" } =
              .error "User ID is required and must be a string" := by
          unfold mkTxn
          rw [if_neg (append_ne_empty _ _ (by decide)), if_pos ht]
        rw [h1]
      · have hin : mkTxn ("TX_SPLIT_" ++ si) t amt "TRY" .transfer_in .ok none
            { from_user := some f, related_tx := some ("TX_SPLIT_" ++ so),
              mtype := some "split_received" } =
              .ok (splitInTxnOf f t amt so si) :=
          mkTxn_ok_iff.mpr ⟨append_ne_empty _ _ (by decide), ht, hq, rfl⟩
        rw [hin]
        obtain ⟨db, fuel⟩ := st
        cases fuel with
        | zero => left; exact ⟨"storage failure", rfl⟩
        | succ n =>
          right
          refine ⟨hq, hf, ht, by omega, ?_⟩
          rfl

/-- A `settleBillSplit` run either fails leaving the store untouched, or
the checked preconditions held (debtor matches, status not `settled`,
funds sufficient) and either only the transfer bundle committed (with a
failure result) or the transfer bundle and the status update both
committed (with a success result). -/
theorem settleBillSplitE_cases (st : Store) (sid : ℕ) (payer so si : String) :
    (runSuccess (settleBillSplitE st sid payer so si) = false ∧
      runStore (settleBillSplitE st sid payer so si) = st) ∨
    (∃ s fw, findSplit st.1 sid = some s ∧ s.debtorUserId = payer ∧
      s.status ≠ SplitStatus.settled ∧ findWallet st.1 payer = some fw ∧
      s.shareAmount ≤ fw.balance ∧ 0 < s.shareAmount ∧
      ((runSuccess (settleBillSplitE st sid payer so si) = false ∧
         runDB (settleBillSplitE st sid payer so si) =
           applyUnit st.1 (settleXferUnit s.debtorUserId s.payerUserId s.shareAmount so si)) ∨
       (runSuccess (settleBillSplitE st sid payer so si) = true ∧
         runDB (settleBillSplitE st sid payer so si) =
           applyUnit
             (applyUnit st.1 (settleXferUnit s.debtorUserId s.payerUserId s.shareAmount so si))
             [.setSplitStatus sid .settled]))) := by
  unfold settleBillSplitE
  rw [runSuccess_catchE, runStore_catchE]
  unfold runDB
  rw [runStore_catchE]
  unfold settleBillSplitBody
  cases hs : findSplit st.1 sid with
  | none => left; exact ⟨rfl, rfl⟩
  | some s =>
    dsimp only
    by_cases h1 : s.debtorUserId ≠ payer
    · rw [if_pos h1]; left; exact ⟨rfl, rfl⟩
    · rw [if_neg h1]
      push_neg at h1
      by_cases h2 : s.status = SplitStatus.settled
      · rw [if_pos h2]; left; exact ⟨rfl, rfl⟩
      · rw [if_neg h2]
        cases hfw : findWallet st.1 payer with
        | none =>
          rw [if_pos rfl]
          left; exact ⟨rfl, rfl⟩
        | some fw =>
          dsimp only
          by_cases h4 : hasSufficientFunds fw s.shareAmount = false
          · rw [if_pos h4]; left; exact ⟨rfl, rfl⟩
          · rw [if_neg h4]
            have hqb : s.shareAmount ≤ fw.balance := by
              have := eq_true_of_ne_false h4
              unfold hasSufficientFunds at this
              exact of_decide_eq_true this
            rcases splitTransferMoney_cases st s.debtorUserId s.payerUserId
                s.shareAmount so si with ⟨e, he⟩ | ⟨hamt, _, _, hfuel, hok⟩
            · rw [he]
              left; exact ⟨rfl, rfl⟩
            · rw [hok]
              dsimp only
              rw [if_neg (by simp)]
              obtain ⟨db, fuel⟩ := st
              cases fuel with
              | zero => omega
              | succ n =>
                cases n with
                | zero =>
                  right
                  exact ⟨s, fw, rfl, h1, h2, rfl, hqb, hamt,
                    Or.inl ⟨rfl, rfl⟩⟩
                | succ k =>
                  right
                  exact ⟨s, fw, rfl, h1, h2, rfl, hqb, hamt,
                    Or.inr ⟨rfl, rfl⟩⟩

/-- States reachable by the cashback loop from a base state: a sequence
of record inserts and positive two-decimal credits to the evaluated
user's wallet, each committed as its own write unit. -/
inductive CbReach (u : String) : DB → DB → Prop
  | refl (db : DB) : CbReach u db db
  | ins (db db' : DB) (t : Txn) (h : CbReach u db db') :
      CbReach u db (applyOp db' (.insertTxn t))
  | cred (db db' : DB) (cb : ℚ) (h0 : 0 < cb) (h2 : has2dp cb) (h : CbReach u db db') :
      CbReach u db (applyOp db' (.credit u cb))

theorem CbReach.chain {u : String} {a b c : DB}
    (h1 : CbReach u a b) (h2 : CbReach u b c) : CbReach u a c := by
  induction h2 with
  | refl => exact h1
  | ins db' t h ih => exact CbReach.ins _ _ t ih
  | cred db' cb h0 hd h ih => exact CbReach.cred _ _ cb h0 hd ih

theorem calculateCashbackAmount_2dp (r : Rule) (a : ℚ) :
    has2dp (calculateCashbackAmount r a) := by
  unfold calculateCashbackAmount
  exact has2dp_round2 _

/-- Every state the cashback loop can leave behind (success, storage
fault, or throw) is `CbReach`-reachable from the starting state. -/
theorem cashbackLoop_reach (u m : String) (a : ℚ) (ptx : String) (gen : ℕ → String) :
    ∀ (rules : List Rule) (st : Store) (k : ℕ) (total : ℚ)
      (applied : List (String × ℚ)),
    CbReach u st.1 (runDB (cashbackLoop st u m a ptx gen rules k total applied)) := by
  intro rules
  induction rules with
  | nil =>
    intro st k total applied
    exact CbReach.refl _
  | cons r rs ih =>
    intro st k total applied
    unfold cashbackLoop
    by_cases hcb : 0 < calculateCashbackAmount r a
    · rw [if_pos hcb]
      cases hmk : mkTxn ("TX_CB_" ++ gen k) u (calculateCashbackAmount r a) "TRY"
          .cashback .ok (some m)
          { rule_id := some r.rule_id, original_tx_id := some ptx } with
      | error e => exact CbReach.refl _
      | ok t =>
        dsimp only
        obtain ⟨db, fuel⟩ := st
        cases fuel with
        | zero => exact CbReach.refl _
        | succ n =>
          rw [show commitUnit (db, n + 1) [SqlOp.insertTxn t] =
                .ok (applyUnit db [SqlOp.insertTxn t], n) from rfl]
          dsimp only
          cases n with
          | zero =>
            rw [show commitUnit (applyUnit db [SqlOp.insertTxn t], 0)
                  [SqlOp.credit u (calculateCashbackAmount r a)] =
                .error ("storage failure", (applyUnit db [SqlOp.insertTxn t], 0)) from rfl]
            exact CbReach.ins _ _ t (CbReach.refl _)
          | succ n2 =>
            rw [show commitUnit (applyUnit db [SqlOp.insertTxn t], n2 + 1)
                  [SqlOp.credit u (calculateCashbackAmount r a)] =
                .ok (applyUnit (applyUnit db [SqlOp.insertTxn t])
                      [SqlOp.credit u (calculateCashbackAmount r a)], n2) from rfl]
            dsimp only
            refine CbReach.chain
              (CbReach.cred _ _ (calculateCashbackAmount r a) hcb
                (calculateCashbackAmount_2dp r a)
                (CbReach.ins _ _ t (CbReach.refl _))) ?_
            exact ih (applyUnit (applyUnit db [SqlOp.insertTxn t])
              [SqlOp.credit u (calculateCashbackAmount r a)], n2) (k + 1)
              (total + calculateCashbackAmount r a)
              (applied ++ [(r.rule_id, calculateCashbackAmount r a)])
    · rw [if_neg hcb]
      exact ih st k total applied

/-- Every state a `calculateAndApplyCashback` run can leave behind is
`CbReach`-reachable from the starting state. -/
theorem calculateAndApplyCashbackE_reach (st : Store) (u m : String) (a : ℚ)
    (ptx : String) (today : ℕ) (gen : ℕ → String) :
    CbReach u st.1 (runDB (calculateAndApplyCashbackE st u m a ptx today gen)) := by
  unfold calculateAndApplyCashbackE
  rw [runDB_catchE]
  unfold calculateAndApplyCashbackBody
  cases hm : st.1.merchants.find? (fun mm => decide (mm.merchant_id = m)) with
  | none => exact CbReach.refl _
  | some merchant =>
    dsimp only
    cases hr : getApplicableCashbackRules st.1 u merchant.category today with
    | nil => exact CbReach.refl _
    | cons r rs =>
      dsimp only
      have h := cashbackLoop_reach u m a ptx gen (r :: rs) st 0 0 []
      cases hloop : cashbackLoop st u m a ptx gen (r :: rs) 0 0 [] with
      | error e =>
        obtain ⟨e1, e2⟩ := e
        rw [hloop] at h
        exact h
      | ok v =>
        obtain ⟨⟨total, applied⟩, st'⟩ := v
        rw [hloop] at h
        exact h

theorem CbReach_inv {u : String} {a b : DB} (h : CbReach u a b)
    (hi : LedgerInv a) : LedgerInv b := by
  induction h with
  | refl => exact hi
  | ins db' t h ih => exact ih
  | cred db' cb h0 h2dp h ih =>
    obtain ⟨h1, h2⟩ := ih
    constructor
    · show (updateBalance db'.wallets u (fun b => b + cb)).Pairwise _
      exact updateBalance_pairwise h1
    · show ∀ w ∈ updateBalance db'.wallets u (fun b => b + cb), 0 ≤ w.balance
      exact nonneg_credit h2 (le_of_lt h0)

theorem CbReach_inv2dp {u : String} {a b : DB} (h : CbReach u a b)
    (hi : Inv2dp a) : Inv2dp b := by
  induction h with
  | refl => exact hi
  | ins db' t h ih => exact ih
  | cred db' cb h0 h2dp h ih =>
    obtain ⟨h1, h2⟩ := ih
    constructor
    · show ∀ w ∈ updateBalance db'.wallets u (fun b => b + cb), has2dp w.balance
      intro w' hw'
      obtain ⟨w, hw, rfl⟩ := mem_updateBalance hw'
      split
      · exact has2dp_add (h1 w hw) h2dp
      · exact h1 w hw
    · exact h2

/-! ## Invariant preservation, per operation -/

theorem transferMoneyE_inv (st : Store) (f t : String) (a : JSValue) (so si : String)
    (hi : LedgerInv st.1) : LedgerInv (runDB (transferMoneyE st f t a so si)) := by
  rcases transferMoneyE_cases st f t a so si with ⟨_, hst⟩ |
    ⟨_, q, fw, tw, _, hq, _, _, _, hfw, _, hqb, hst, _⟩
  · unfold runDB
    rw [hst]
    exact hi
  · unfold runDB
    rw [hst]
    obtain ⟨hu, hn⟩ := hi
    constructor
    · show (updateBalance (updateBalance st.1.wallets f (fun b => b - q)) t
        (fun b => b + q)).Pairwise (fun a b => a.userId ≠ b.userId)
      exact updateBalance_pairwise (updateBalance_pairwise hu)
    · show ∀ w ∈ updateBalance (updateBalance st.1.wallets f (fun b => b - q)) t
        (fun b => b + q), 0 ≤ w.balance
      exact nonneg_credit (nonneg_debit hu hn hfw hqb) (le_of_lt hq)

theorem processPaymentE_inv (st : Store) (u m : String) (a : JSValue) (sfx : String)
    (hi : LedgerInv st.1) : LedgerInv (runDB (processPaymentE st u m a sfx)) := by
  rcases processPaymentE_cases st u m a sfx with ⟨_, hst⟩ |
    ⟨_, q, w, _, hq, _, _, hfw, hqb, hst, _⟩
  · unfold runDB
    rw [hst]
    exact hi
  · unfold runDB
    rw [hst]
    obtain ⟨hu, hn⟩ := hi
    constructor
    · show (updateBalance st.1.wallets u (fun b => b - q)).Pairwise
        (fun a b => a.userId ≠ b.userId)
      exact updateBalance_pairwise hu
    · show ∀ w ∈ updateBalance st.1.wallets u (fun b => b - q), 0 ≤ w.balance
      exact nonneg_debit hu hn hfw hqb

theorem topUpWalletE_inv (st : Store) (u : String) (a : JSValue) (sfx : String)
    (hi : LedgerInv st.1) : LedgerInv (runDB (topUpWalletE st u a sfx)) := by
  rcases topUpWalletE_cases st u a sfx with ⟨_, hst⟩ | ⟨_, q, w, _, hq, hfw, hst, _⟩
  · unfold runDB
    rw [hst]
    exact hi
  · unfold runDB
    rw [hst]
    obtain ⟨hu, hn⟩ := hi
    constructor
    · show (updateBalance st.1.wallets u (fun b => b + q)).Pairwise
        (fun a b => a.userId ≠ b.userId)
      exact updateBalance_pairwise hu
    · show ∀ w ∈ updateBalance st.1.wallets u (fun b => b + q), 0 ≤ w.balance
      exact nonneg_credit hn (le_of_lt hq)

theorem processQRPaymentE_inv (st : Store) (u : String) (qrData : QrPayload)
    (nowMs : ℚ) (sfx : String) (hi : LedgerInv st.1) :
    LedgerInv (runDB (processQRPaymentE st u qrData nowMs sfx)) := by
  rcases processQRPaymentE_cases st u qrData nowMs sfx with ⟨_, hst⟩ |
    ⟨info, a, mid, _, _, _, _, hst⟩
  · unfold runDB
    rw [hst]
    exact hi
  · unfold runDB
    rw [hst]
    exact processPaymentE_inv st u mid (.num a) sfx hi

theorem settleBillSplitE_inv (st : Store) (sid : ℕ) (payer so si : String)
    (hi : LedgerInv st.1) : LedgerInv (runDB (settleBillSplitE st sid payer so si)) := by
  rcases settleBillSplitE_cases st sid payer so si with ⟨_, hst⟩ |
    ⟨s, fw, _, hdeb, _, hfw, hqb, hpos, hrun⟩
  · unfold runDB
    rw [hst]
    exact hi
  · have hx : LedgerInv (applyUnit st.1
        (settleXferUnit s.debtorUserId s.payerUserId s.shareAmount so si)) := by
      obtain ⟨hu, hn⟩ := hi
      rw [hdeb]
      constructor
      · show (updateBalance (updateBalance st.1.wallets payer
          (fun b => b - s.shareAmount)) s.payerUserId
          (fun b => b + s.shareAmount)).Pairwise (fun a b => a.userId ≠ b.userId)
        exact updateBalance_pairwise (updateBalance_pairwise hu)
      · show ∀ w ∈ updateBalance (updateBalance st.1.wallets payer
          (fun b => b - s.shareAmount)) s.payerUserId
          (fun b => b + s.shareAmount), 0 ≤ w.balance
        exact nonneg_credit (nonneg_debit hu hn hfw hqb) (le_of_lt hpos)
    rcases hrun with ⟨_, hdb⟩ | ⟨_, hdb⟩
    · rw [hdb]
      exact hx
    · rw [hdb]
      obtain ⟨hu, hn⟩ := hx
      exact ⟨hu, hn⟩

theorem calculateAndApplyCashbackE_inv (st : Store) (u m : String) (a : ℚ)
    (ptx : String) (today : ℕ) (gen : ℕ → String) (hi : LedgerInv st.1) :
    LedgerInv (runDB (calculateAndApplyCashbackE st u m a ptx today gen)) :=
  CbReach_inv (calculateAndApplyCashbackE_reach st u m a ptx today gen) hi

/-- Every single core operation preserves the wallet invariant. -/
theorem execOp_inv (db : DB) (op : Op) (hi : LedgerInv db) :
    LedgerInv (execOp db op) := by
  cases op with
  | transfer f t a so si fuel => exact transferMoneyE_inv (db, fuel) f t a so si hi
  | payment u m a sfx fuel => exact processPaymentE_inv (db, fuel) u m a sfx hi
  | topup u a sfx fuel => exact topUpWalletE_inv (db, fuel) u a sfx hi
  | qr u qrData nowMs sfx fuel => exact processQRPaymentE_inv (db, fuel) u qrData nowMs sfx hi
  | settle sid payer so si fuel => exact settleBillSplitE_inv (db, fuel) sid payer so si hi
  | cashback u m a ptx today gen fuel =>
      exact calculateAndApplyCashbackE_inv (db, fuel) u m a ptx today gen hi

/-- Every sequence of core operations preserves the wallet invariant. -/
theorem runOps_inv (db : DB) (ops : List Op) (hi : LedgerInv db) :
    LedgerInv (runOps db ops) := by
  induction ops generalizing db with
  | nil => exact hi
  | cons op rest ih => exact ih (execOp db op) (execOp_inv db op hi)

/-! ## Insufficient-funds behaviour -/

theorem transferMoneyE_insufficient (st : Store) (f t : String) (q : ℚ)
    (so si : String) {fw tw : Wallet}
    (hf : f ≠ "") (ht : t ≠ "") (hft : f ≠ t) (hq : 0 < q)
    (hfw : findWallet st.1 f = some fw) (htw : findWallet st.1 t = some tw)
    (hbal : fw.balance < q) :
    transferMoneyE st f t (.num q) so si = .ok (failRes "Yetersiz bakiye", st) := by
  have hbody : transferMoneyBody st f t (.num q) so si =
      .ok (failRes "Yetersiz bakiye", st) := by
    unfold transferMoneyBody
    rw [if_neg (by push_neg; exact ⟨hf, ht⟩), if_neg hft]
    dsimp only
    rw [if_neg (not_le.mpr hq), hfw]
    dsimp only
    rw [htw]
    dsimp only
    rw [if_pos (show hasSufficientFunds fw q = false from
      decide_eq_false (not_le.mpr hbal))]
  unfold transferMoneyE
  rw [hbody]
  rfl

theorem processPaymentE_insufficient (st : Store) (u m : String) (q : ℚ)
    (sfx : String) {w : Wallet}
    (hu : u ≠ "") (hm : m ≠ "") (hq : 0 < q)
    (hw : findWallet st.1 u = some w) (hbal : w.balance < q) :
    processPaymentE st u m (.num q) sfx = .ok (failRes "Yetersiz bakiye", st) := by
  have hbody : processPaymentBody st u m (.num q) sfx =
      .ok (failRes "Yetersiz bakiye", st) := by
    unfold processPaymentBody
    rw [if_neg (by push_neg; exact ⟨hu, hm⟩)]
    dsimp only
    rw [if_neg (not_le.mpr hq), hw]
    dsimp only
    rw [if_pos (show hasSufficientFunds w q = false from
      decide_eq_false (not_le.mpr hbal))]
  unfold processPaymentE
  rw [hbody]
  rfl

theorem settleBillSplitE_insufficient (st : Store) (sid : ℕ) (payer so si : String)
    {s : SplitRow} {fw : Wallet}
    (hs : findSplit st.1 sid = some s) (hdeb : s.debtorUserId = payer)
    (hstatus : s.status ≠ SplitStatus.settled)
    (hfw : findWallet st.1 payer = some fw) (hbal : fw.balance < s.shareAmount) :
    settleBillSplitE st sid payer so si = .ok (failRes "Yetersiz bakiye", st) := by
  have hbody : settleBillSplitBody st sid payer so si =
      .ok (failRes "Yetersiz bakiye", st) := by
    unfold settleBillSplitBody
    rw [hs]
    dsimp only
    rw [if_neg (not_ne_iff.mpr hdeb), if_neg hstatus, hfw]
    dsimp only
    rw [if_pos (show hasSufficientFunds fw s.shareAmount = false from
      decide_eq_false (not_le.mpr hbal))]
  unfold settleBillSplitE
  rw [hbody]
  rfl

/-! ## Concrete fixtures for the witnesses and counterexamples -/

/-- Demo store: three users, one cafe merchant, one active 5 percent
cafe cashback rule capped at 20, two wallets, one prior payment, and one
cancelled bill split. -/
def db0 : DB :=
  { users := ["U1", "U2", "U3"],
    merchants := [⟨"M1", "Kahve Diyari", "cafe"⟩],
    cashbackRules := [⟨"CB1", "percent", "cafe", 1/20, 0, some 20, false,
      some 0, some 100, true⟩],
    wallets := [⟨"U1", 250, "TRY"⟩, ⟨"U2", 90, "TRY"⟩],
    transactions := [⟨"TXP1", "U1", some "M1", 30, "TRY", .payment, .ok, {}⟩],
    billSplits := [⟨1, "TXP1", "U1", "U2", 30, 10, 1, .cancelled⟩],
    nextSplitId := 2 }

/-! ## The claims -/

/-- C1: every successful transfer of amount `a` from `F` to `T` debits
`F` by exactly `a`, credits `T` by exactly `a`, preserves the sum of the
two balances, and appends one `transfer_out` record for `F` and one
`transfer_in` record for `T`, each with a metadata back-reference to the
other's transaction id. -/
theorem transfer_conservation (db : DB) (fuel : ℕ) (f t : String) (q : ℚ)
    (so si : String) (fw tw : Wallet)
    (hfw : findWallet db f = some fw) (htw : findWallet db t = some tw)
    (hs : runSuccess (transferMoneyE (db, fuel) f t (.num q) so si) = true) :
    f ≠ t ∧ 0 < q ∧ q ≤ fw.balance ∧
      balOf (runDB (transferMoneyE (db, fuel) f t (.num q) so si)) f =
        fw.balance - q ∧
      balOf (runDB (transferMoneyE (db, fuel) f t (.num q) so si)) t =
        tw.balance + q ∧
      balOf (runDB (transferMoneyE (db, fuel) f t (.num q) so si)) f +
          balOf (runDB (transferMoneyE (db, fuel) f t (.num q) so si)) t =
        balOf db f + balOf db t ∧
      (runDB (transferMoneyE (db, fuel) f t (.num q) so si)).transactions =
        db.transactions ++ [outTxnOf f t q so si, inTxnOf f t q so si] := by
  rcases transferMoneyE_cases (db, fuel) f t (.num q) so si with ⟨hfail, _⟩ |
    ⟨_, q', fw', tw', hq', hqpos, _, _, hft, hfw', htw', hqb, hst, _⟩
  · rw [hfail] at hs
    cases hs
  · cases hq'
    rw [hfw] at hfw'
    rw [htw] at htw'
    cases hfw'
    cases htw'
    have hdb : runDB (transferMoneyE (db, fuel) f t (.num q) so si) =
        applyUnit db [.debit f q, .credit t q,
          .insertTxn (outTxnOf f t q so si), .insertTxn (inTxnOf f t q so si)] := by
      unfold runDB
      rw [hst]
    have hff : findWallet (runDB (transferMoneyE (db, fuel) f t (.num q) so si)) f =
        some { fw with balance := fw.balance - q } := by
      rw [hdb]
      show (updateBalance (updateBalance db.wallets f (fun b => b - q)) t
        (fun b => b + q)).find? (fun w => decide (w.userId = f)) = _
      rw [find?_updateBalance_other _ f t _ hft, find?_updateBalance_self]
      show (findWallet db f).map _ = _
      rw [hfw]
      rfl
    have hft' : findWallet (runDB (transferMoneyE (db, fuel) f t (.num q) so si)) t =
        some { tw with balance := tw.balance + q } := by
      rw [hdb]
      show (updateBalance (updateBalance db.wallets f (fun b => b - q)) t
        (fun b => b + q)).find? (fun w => decide (w.userId = t)) = _
      rw [find?_updateBalance_self]
      show ((updateBalance db.wallets f (fun b => b - q)).find?
        (fun w => decide (w.userId = t))).map _ = _
      rw [find?_updateBalance_other _ t f _ (fun h => hft h.symm)]
      show (findWallet db t).map _ = _
      rw [htw]
      rfl
    have hbf : balOf (runDB (transferMoneyE (db, fuel) f t (.num q) so si)) f =
        fw.balance - q := by
      unfold balOf
      rw [hff]
    have hbt : balOf (runDB (transferMoneyE (db, fuel) f t (.num q) so si)) t =
        tw.balance + q := by
      unfold balOf
      rw [hft']
    have hb0f : balOf db f = fw.balance := by unfold balOf; rw [hfw]
    have hb0t : balOf db t = tw.balance := by unfold balOf; rw [htw]
    refine ⟨hft, hqpos, hqb, hbf, hbt, ?_, ?_⟩
    · rw [hbf, hbt, hb0f, hb0t]
      ring
    · rw [hdb]
      show (db.transactions ++ [outTxnOf f t q so si]) ++ [inTxnOf f t q so si] = _
      rw [List.append_assoc]
      rfl

/-- C1 witness: the demo transfer of 50 from U1 (250) to U2 (90). -/
theorem transfer_conservation_witness :
    findWallet db0 "U1" = some ⟨"U1", 250, "TRY"⟩ ∧
    findWallet db0 "U2" = some ⟨"U2", 90, "TRY"⟩ ∧
    runSuccess (transferMoneyE (db0, 10) "U1" "U2" (.num 50) "aa" "bb") = true ∧
    ("U1" ≠ "U2" ∧ 0 < (50 : ℚ) ∧ (50 : ℚ) ≤ (250 : ℚ) ∧
      balOf (runDB (transferMoneyE (db0, 10) "U1" "U2" (.num 50) "aa" "bb")) "U1" =
        250 - 50 ∧
      balOf (runDB (transferMoneyE (db0, 10) "U1" "U2" (.num 50) "aa" "bb")) "U2" =
        90 + 50 ∧
      balOf (runDB (transferMoneyE (db0, 10) "U1" "U2" (.num 50) "aa" "bb")) "U1" +
          balOf (runDB (transferMoneyE (db0, 10) "U1" "U2" (.num 50) "aa" "bb")) "U2" =
        balOf db0 "U1" + balOf db0 "U2" ∧
      (runDB (transferMoneyE (db0, 10) "U1" "U2" (.num 50) "aa" "bb")).transactions =
        db0.transactions ++
          [outTxnOf "U1" "U2" 50 "aa" "bb", inTxnOf "U1" "U2" 50 "aa" "bb"]) :=
  ⟨by decide, by decide, by decide,
   transfer_conservation db0 10 "U1" "U2" 50 "aa" "bb" ⟨"U1", 250, "TRY"⟩
     ⟨"U2", 90, "TRY"⟩ (by decide) (by decide) (by decide)⟩

/-- C2: no sequence of core operations (transfer, payment, top-up, QR
payment, split settlement, cashback crediting) drives any wallet balance
below zero, and a debit attempt exceeding the debited wallet's balance —
in a transfer, a payment, or a split settlement — returns the structured
`Yetersiz bakiye` failure with the store untouched (no balance change,
no record inserted). -/
theorem nonnegativity (db : DB) (ops : List Op)
    (st : Store) (f t u m : String) (q qp : ℚ) (so si sfx : String)
    (fw w : Wallet) (sid : ℕ) (payer sso ssi : String) (s : SplitRow)
    (sw : Wallet)
    (hi : LedgerInv db)
    (hf : f ≠ "") (ht : t ≠ "") (hft : f ≠ t) (hq : 0 < q)
    (hfw : findWallet st.1 f = some fw) (htw : (findWallet st.1 t).isSome)
    (hbal : fw.balance < q)
    (hu : u ≠ "") (hm : m ≠ "") (hqp : 0 < qp)
    (hw : findWallet st.1 u = some w) (hbalp : w.balance < qp)
    (hsp : findSplit st.1 sid = some s) (hdeb : s.debtorUserId = payer)
    (hstatus : s.status ≠ SplitStatus.settled)
    (hsw : findWallet st.1 payer = some sw) (hbals : sw.balance < s.shareAmount) :
    LedgerInv (runOps db ops) ∧
    transferMoneyE st f t (.num q) so si = .ok (failRes "Yetersiz bakiye", st) ∧
    processPaymentE st u m (.num qp) sfx = .ok (failRes "Yetersiz bakiye", st) ∧
    settleBillSplitE st sid payer sso ssi = .ok (failRes "Yetersiz bakiye", st) := by
  obtain ⟨tw, htw'⟩ := Option.isSome_iff_exists.mp htw
  exact ⟨runOps_inv db ops hi,
    transferMoneyE_insufficient st f t q so si hf ht hft hq hfw htw' hbal,
    processPaymentE_insufficient st u m qp sfx hu hm hqp hw hbalp,
    settleBillSplitE_insufficient st sid payer sso ssi hsp hdeb hstatus hsw hbals⟩

/-- `db0` with an additional pending split of share 1000 owed by U2. -/
def db0big : DB :=
  { db0 with
    billSplits := db0.billSplits ++ [⟨2, "TXP1", "U1", "U2", 3000, 1000, 1, .pending⟩],
    nextSplitId := 3 }

/-- C2 witness: a demo operation sequence (top-up, transfer, payment, QR
payment, settlement of the cancelled split, cashback run with a storage
fault) keeps all balances non-negative, and three concrete over-balance
debits fail with `Yetersiz bakiye` and no state change. -/
theorem nonnegativity_witness :
    LedgerInv (runOps db0
      [.topup "U1" (.num 5) "t1" 3,
       .transfer "U1" "U2" (.num 200) "a1" "b1" 3,
       .payment "U2" "M1" (.num 15) "p1" 3,
       .qr "U1" (.objPayload ⟨some "QR-M1-001", some "M1", some (51/2), some 0⟩)
         3600000 "q1" 3,
       .settle 1 "U2" "s1" "s2" 3,
       .cashback "U2" "M1" 15 "TX_PAY_p1" 5 (fun _ => "cb") 1]) ∧
    transferMoneyE (db0big, 9) "U1" "U2" (.num 1000) "x1" "x2" =
      .ok (failRes "Yetersiz bakiye", (db0big, 9)) ∧
    processPaymentE (db0big, 9) "U2" "M1" (.num 1000) "x3" =
      .ok (failRes "Yetersiz bakiye", (db0big, 9)) ∧
    settleBillSplitE (db0big, 9) 2 "U2" "x4" "x5" =
      .ok (failRes "Yetersiz bakiye", (db0big, 9)) :=
  nonnegativity db0 _ (db0big, 9) "U1" "U2" "U2" "M1" 1000 1000 "x1" "x2" "x3"
    ⟨"U1", 250, "TRY"⟩ ⟨"U2", 90, "TRY"⟩ 2 "U2" "x4" "x5"
    ⟨2, "TXP1", "U1", "U2", 3000, 1000, 1, .pending⟩ ⟨"U2", 90, "TRY"⟩
    (by decide) (by decide) (by decide) (by decide) (by decide)
    (by decide) (by decide) (by decide) (by decide) (by decide)
    (by decide) (by decide) (by decide) (by decide) (by decide)
    (by decide) (by decide) (by decide)

/-- C3 counterexample: a cashback run against `db0` with a storage fault
budget of one unit commits the cashback Transaction record (first write
unit) and then fails before the wallet credit (second write unit): the
resulting state holds a balance-affecting `cashback` record for U1 with
no matching balance change, so the record insert and the balance
mutation are NOT executed in one atomic bundle. -/
theorem cashback_record_without_credit :
    (runDB (calculateAndApplyCashbackE (db0, 1) "U1" "M1" 20 "TXP1" 5
      (fun _ => "cb"))).wallets = db0.wallets ∧
    (runDB (calculateAndApplyCashbackE (db0, 1) "U1" "M1" 20 "TXP1" 5
      (fun _ => "cb"))).transactions =
      db0.transactions ++
        [⟨"TX_CB_cb", "U1", some "M1", 1, "TRY", .cashback, .ok,
          { rule_id := some "CB1", original_tx_id := some "TXP1" }⟩] := by
  decide

/-- C3 amended: transfers, payments, top-ups and split-settlement
transfers execute their balance mutations and record insertions in one
atomic all-or-nothing bundle (each run either leaves the store untouched
or applies its complete bundle), but the cashback credit inserts its
record and updates the balance as two separate write units, so a storage
failure between them leaves a cashback record with no balance change. -/
theorem mutation_record_atomicity :
    (∀ (st : Store) (f t : String) (a : JSValue) (so si : String),
      runDB (transferMoneyE st f t a so si) = st.1 ∨
      ∃ q, a = .num q ∧ runDB (transferMoneyE st f t a so si) =
        applyUnit st.1 [.debit f q, .credit t q,
          .insertTxn (outTxnOf f t q so si), .insertTxn (inTxnOf f t q so si)]) ∧
    (∀ (st : Store) (u m : String) (a : JSValue) (sfx : String),
      runDB (processPaymentE st u m a sfx) = st.1 ∨
      ∃ q, a = .num q ∧ runDB (processPaymentE st u m a sfx) =
        applyUnit st.1 [.debit u q, .insertTxn (payTxnOf u m q sfx)]) ∧
    (∀ (st : Store) (u : String) (a : JSValue) (sfx : String),
      runDB (topUpWalletE st u a sfx) = st.1 ∨
      ∃ q, a = .num q ∧ runDB (topUpWalletE st u a sfx) =
        applyUnit st.1 [.credit u q, .insertTxn (topTxnOf u q sfx)]) ∧
    (∀ (st : Store) (f t : String) (amt : ℚ) (so si : String),
      runDB (splitTransferMoney st f t amt so si) = st.1 ∨
      runDB (splitTransferMoney st f t amt so si) =
        applyUnit st.1 (settleXferUnit f t amt so si)) := by
  refine ⟨?_, ?_, ?_, ?_⟩
  · intro st f t a so si
    rcases transferMoneyE_cases st f t a so si with ⟨_, hst⟩ |
      ⟨_, q, fw, tw, ha, _, _, _, _, _, _, _, hst, _⟩
    · left; unfold runDB; rw [hst]
    · right
      refine ⟨q, ha, ?_⟩
      unfold runDB
      rw [hst]
  · intro st u m a sfx
    rcases processPaymentE_cases st u m a sfx with ⟨_, hst⟩ |
      ⟨_, q, w, ha, _, _, _, _, _, hst, _⟩
    · left; unfold runDB; rw [hst]
    · right
      refine ⟨q, ha, ?_⟩
      unfold runDB
      rw [hst]
  · intro st u a sfx
    rcases topUpWalletE_cases st u a sfx with ⟨_, hst⟩ | ⟨_, q, w, ha, _, _, hst, _⟩
    · left; unfold runDB; rw [hst]
    · right
      refine ⟨q, ha, ?_⟩
      unfold runDB
      rw [hst]
  · intro st f t amt so si
    rcases splitTransferMoney_cases st f t amt so si with ⟨e, he⟩ |
      ⟨_, _, _, _, hok⟩
    · left; rw [he]; rfl
    · right; rw [hok]; rfl

/-- C4 counterexample: settling the CANCELLED split 1 of `db0` (debtor
U2, share 10, funds sufficient) SUCCEEDS: U2 is debited 10, U1 credited
10, and the split is marked `settled` — but the claim requires every
non-pending (settled or cancelled) split to be rejected with no money
movement and no status change. -/
theorem settle_cancelled_succeeds :
    findSplit db0 1 = some ⟨1, "TXP1", "U1", "U2", 30, 10, 1, .cancelled⟩ ∧
    runSuccess (settleBillSplitE (db0, 5) 1 "U2" "x" "y") = true ∧
    balOf (runDB (settleBillSplitE (db0, 5) 1 "U2" "x" "y")) "U2" = 80 ∧
    balOf (runDB (settleBillSplitE (db0, 5) 1 "U2" "x" "y")) "U1" = 260 ∧
    findSplit (runDB (settleBillSplitE (db0, 5) 1 "U2" "x" "y")) 1 =
      some ⟨1, "TXP1", "U1", "U2", 30, 10, 1, .settled⟩ := by
  decide

/-- C4 amended: `settleBillSplit` succeeds only when the split exists,
payingUser equals the split's debtor, the split's status is not
`settled`, and the debtor's balance covers the share; every `settled`
split is rejected with no money movement and no status change.  The
only status the gate rejects is `settled`: a `cancelled` split still
passes and can be settled (see the counterexample). -/
theorem settle_preconditions :
    (∀ (st : Store) (sid : ℕ) (payer so si : String) (s : SplitRow),
      findSplit st.1 sid = some s → s.status = .settled →
      runSuccess (settleBillSplitE st sid payer so si) = false ∧
      runStore (settleBillSplitE st sid payer so si) = st) ∧
    (∀ (st : Store) (sid : ℕ) (payer so si : String),
      runSuccess (settleBillSplitE st sid payer so si) = true →
      ∃ s fw, findSplit st.1 sid = some s ∧ s.debtorUserId = payer ∧
        s.status ≠ .settled ∧ findWallet st.1 payer = some fw ∧
        s.shareAmount ≤ fw.balance) := by
  constructor
  · intro st sid payer so si s hs hsettled
    unfold settleBillSplitE
    rw [runSuccess_catchE, runStore_catchE]
    unfold settleBillSplitBody
    rw [hs]
    dsimp only
    by_cases h1 : s.debtorUserId ≠ payer
    · rw [if_pos h1]; exact ⟨rfl, rfl⟩
    · rw [if_neg h1, if_pos hsettled]; exact ⟨rfl, rfl⟩
  · intro st sid payer so si hsucc
    rcases settleBillSplitE_cases st sid payer so si with ⟨hfail, _⟩ |
      ⟨s, fw, h1, h2, h3, h4, h5, _, _⟩
    · rw [hfail] at hsucc
      cases hsucc
    · exact ⟨s, fw, h1, h2, h3, h4, h5⟩

/-- `db0` with an additional already-settled split of id 3. -/
def db0settled : DB :=
  { db0 with
    billSplits := db0.billSplits ++ [⟨3, "TXP1", "U1", "U2", 30, 10, 1, .settled⟩],
    nextSplitId := 4 }

/-- C4 witness: settling the settled split 3 fails with no state change,
and the successful settlement of split 1 implies its preconditions. -/
theorem settle_preconditions_witness :
    (runSuccess (settleBillSplitE (db0settled, 5) 3 "U2" "x" "y") = false ∧
     runStore (settleBillSplitE (db0settled, 5) 3 "U2" "x" "y") = (db0settled, 5)) ∧
    (∃ s fw, findSplit db0 1 = some s ∧ s.debtorUserId = "U2" ∧
      s.status ≠ .settled ∧ findWallet db0 "U2" = some fw ∧
      s.shareAmount ≤ fw.balance) :=
  ⟨settle_preconditions.1 (db0settled, 5) 3 "U2" "x" "y"
     ⟨3, "TXP1", "U1", "U2", 30, 10, 1, .settled⟩ (by decide) (by decide),
   settle_preconditions.2 (db0, 5) 1 "U2" "x" "y" (by decide)⟩

/-- A `createEqualSplit` run either fails leaving the store untouched,
or succeeds having inserted, in one batch, one pending row per remaining
debtor with the equal rounded share. -/
theorem createEqualSplitE_cases (st : Store) (payer otx : String)
    (ids : List String) :
    (runSuccess (createEqualSplitE st payer otx (some ids)) = false ∧
      runStore (createEqualSplitE st payer otx (some ids)) = st) ∨
    (runSuccess (createEqualSplitE st payer otx (some ids)) = true ∧
      ∃ tx, findTxn st.1 otx = some tx ∧ tx.userId = payer ∧
        ids.filter (fun i => decide (i ≠ payer)) ≠ [] ∧
        (∀ d ∈ ids.filter (fun i => decide (i ≠ payer)), d ∈ st.1.users) ∧
        0 < round2 (tx.amount /
          (((ids.filter (fun i => decide (i ≠ payer))).length + 1 : ℕ) : ℚ)) ∧
        runDB (createEqualSplitE st payer otx (some ids)) =
          { st.1 with
            billSplits := st.1.billSplits ++ assignIds st.1.nextSplitId
              ((ids.filter (fun i => decide (i ≠ payer))).map (fun d =>
                ⟨otx, payer, d, tx.amount,
                 round2 (tx.amount /
                   (((ids.filter (fun i => decide (i ≠ payer))).length + 1 : ℕ) : ℚ)),
                 1, SplitStatus.pending⟩)),
            nextSplitId := st.1.nextSplitId +
              (ids.filter (fun i => decide (i ≠ payer))).length }) := by
  unfold createEqualSplitE
  rw [runSuccess_catchE, runStore_catchE]
  unfold runDB
  rw [runStore_catchE]
  unfold createEqualSplitBody
  dsimp only
  by_cases h1 : payer = "" ∨ otx = "" ∨ ids.isEmpty
  · rw [if_pos h1]; left; exact ⟨rfl, rfl⟩
  · rw [if_neg h1]
    by_cases h2 : (ids.filter (fun i => decide (i ≠ payer))).isEmpty
    · rw [if_pos h2]; left; exact ⟨rfl, rfl⟩
    · rw [if_neg h2]
      cases htx : findTxn st.1 otx with
      | none => left; exact ⟨rfl, rfl⟩
      | some tx =>
        dsimp only
        by_cases h3 : tx.userId ≠ payer
        · rw [if_pos h3]; left; exact ⟨rfl, rfl⟩
        · rw [if_neg h3]
          push_neg at h3
          by_cases h4 : ¬ (ids.filter (fun i => decide (i ≠ payer))).all
              (fun u => decide (u ∈ st.1.users))
          · rw [if_pos h4]; left; exact ⟨rfl, rfl⟩
          · rw [if_neg h4]
            rw [not_not] at h4
            cases hmap : mapExcept (ids.filter (fun i => decide (i ≠ payer)))
                (fun debtorUserId =>
                  mkBillSplitData otx payer debtorUserId tx.amount
                    (round2 (tx.amount /
                      (((ids.filter (fun i => decide (i ≠ payer))).length + 1 : ℕ) : ℚ)))
                    1 .pending) with
            | error e => left; exact ⟨rfl, rfl⟩
            | ok datas =>
              dsimp only
              obtain ⟨hdatas, hall⟩ := mapExcept_ok
                (g := fun d => (⟨otx, payer, d, tx.amount,
                  round2 (tx.amount /
                    (((ids.filter (fun i => decide (i ≠ payer))).length + 1 : ℕ) : ℚ)),
                  1, SplitStatus.pending⟩ : SplitData))
                (fun a b hb => (mkBillSplitData_ok_iff.mp hb).2.2.2.2.2.2.2.2) hmap
              have hne : ids.filter (fun i => decide (i ≠ payer)) ≠ [] := by
                intro hcon
                rw [hcon] at h2
                exact h2 rfl
              obtain ⟨d0, hd0⟩ := List.exists_mem_of_ne_nil _ hne
              have hpos : 0 < round2 (tx.amount /
                  (((ids.filter (fun i => decide (i ≠ payer))).length + 1 : ℕ) : ℚ)) :=
                (mkBillSplitData_ok_iff.mp (hall d0 hd0)).2.2.2.2.2.1
              have husers : ∀ d ∈ ids.filter (fun i => decide (i ≠ payer)),
                  d ∈ st.1.users := by
                intro d hd
                have := List.all_eq_true.mp h4 d hd
                exact of_decide_eq_true this
              obtain ⟨db, fuel⟩ := st
              cases fuel with
              | zero => left; exact ⟨rfl, rfl⟩
              | succ n =>
                rw [show commitUnit (db, n + 1) (datas.map SqlOp.insertSplit) =
                    .ok (applyUnit db (datas.map SqlOp.insertSplit), n) from rfl]
                dsimp only
                right
                refine ⟨rfl, tx, rfl, h3, hne, husers, hpos, ?_⟩
                show applyUnit db (datas.map SqlOp.insertSplit) = _
                rw [hdatas, applyUnit_insertSplits, List.length_map]

/-- C5: a successful equal split over original transaction `tx` owned by
`payer`, with `D` the debtors remaining after removing the payer,
creates exactly one BillSplit row per debtor of `D` (appended as one
batch with consecutive ids), each row pending with weight 1 and share
`round2 (tx.amount / (D.length + 1))`, and that share is strictly
positive. -/
theorem equal_split_rows (db : DB) (fuel : ℕ) (payer otx : String)
    (ids : List String) (tx : Txn)
    (htx : findTxn db otx = some tx)
    (hs : runSuccess (createEqualSplitE (db, fuel) payer otx (some ids)) = true) :
    tx.userId = payer ∧
    ids.filter (fun i => decide (i ≠ payer)) ≠ [] ∧
    (∀ d ∈ ids.filter (fun i => decide (i ≠ payer)), d ∈ db.users) ∧
    0 < round2 (tx.amount /
      (((ids.filter (fun i => decide (i ≠ payer))).length + 1 : ℕ) : ℚ)) ∧
    (runDB (createEqualSplitE (db, fuel) payer otx (some ids))).billSplits =
      db.billSplits ++ assignIds db.nextSplitId
        ((ids.filter (fun i => decide (i ≠ payer))).map (fun d =>
          ⟨otx, payer, d, tx.amount,
           round2 (tx.amount /
             (((ids.filter (fun i => decide (i ≠ payer))).length + 1 : ℕ) : ℚ)),
           1, SplitStatus.pending⟩)) := by
  rcases createEqualSplitE_cases (db, fuel) payer otx ids with ⟨hfail, _⟩ |
    ⟨_, tx', htx', howner, hne, husers, hpos, hdb⟩
  · rw [hfail] at hs
    cases hs
  · rw [htx] at htx'
    cases htx'
    refine ⟨howner, hne, husers, hpos, ?_⟩
    rw [hdb]

/-- C5 witness: splitting the 30 TRY payment TXP1 of U1 equally with
debtors U2 and U3 creates two pending rows of share 10 each. -/
theorem equal_split_rows_witness :
    findTxn db0 "TXP1" = some ⟨"TXP1", "U1", some "M1", 30, "TRY", .payment, .ok, {}⟩ ∧
    runSuccess (createEqualSplitE (db0, 10) "U1" "TXP1" (some ["U2", "U3"])) = true ∧
    (Txn.userId ⟨"TXP1", "U1", some "M1", 30, "TRY", .payment, .ok, {}⟩ = "U1" ∧
     (["U2", "U3"].filter (fun i => decide (i ≠ "U1"))) ≠ [] ∧
     (∀ d ∈ ["U2", "U3"].filter (fun i => decide (i ≠ "U1")), d ∈ db0.users) ∧
     0 < round2 ((30 : ℚ) /
       (((["U2", "U3"].filter (fun i => decide (i ≠ "U1"))).length + 1 : ℕ) : ℚ)) ∧
     (runDB (createEqualSplitE (db0, 10) "U1" "TXP1" (some ["U2", "U3"]))).billSplits =
       db0.billSplits ++ assignIds db0.nextSplitId
         ((["U2", "U3"].filter (fun i => decide (i ≠ "U1"))).map (fun d =>
           ⟨"TXP1", "U1", d, (30 : ℚ),
            round2 ((30 : ℚ) /
              (((["U2", "U3"].filter (fun i => decide (i ≠ "U1"))).length + 1 : ℕ) : ℚ)),
            1, SplitStatus.pending⟩))) :=
  ⟨by decide, by decide,
   equal_split_rows db0 10 "U1" "TXP1" ["U2", "U3"]
     ⟨"TXP1", "U1", some "M1", 30, "TRY", .payment, .ok, {}⟩
     (by decide) (by decide)⟩

theorem assignIds_map_share : ∀ (n : ℕ) (datas : List SplitData),
    (assignIds n datas).map SplitRow.shareAmount = datas.map SplitData.shareAmount := by
  intro n datas
  induction datas generalizing n with
  | nil => rfl
  | cons d ds ih =>
    simp only [assignIds, List.map_cons]
    rw [ih]

/-- A `createWeightedSplit` run either fails leaving the store
untouched, or succeeds having inserted, in one batch, one pending row
per remaining debtor whose share is its weight's proportional part of
the original amount, rounded independently. -/
theorem createWeightedSplitE_cases (st : Store) (payer otx : String)
    (items : List WeightItem) :
    (runSuccess (createWeightedSplitE st payer otx (some items)) = false ∧
      runStore (createWeightedSplitE st payer otx (some items)) = st) ∨
    (runSuccess (createWeightedSplitE st payer otx (some items)) = true ∧
      ∃ tx, findTxn st.1 otx = some tx ∧ tx.userId = payer ∧
        items.filter (fun it => decide (it.userId ≠ payer)) ≠ [] ∧
        (∀ it ∈ items.filter (fun it => decide (it.userId ≠ payer)),
          it.weight = .num (jnum it.weight) ∧ 0 < jnum it.weight) ∧
        runDB (createWeightedSplitE st payer otx (some items)) =
          { st.1 with
            billSplits := st.1.billSplits ++ assignIds st.1.nextSplitId
              ((items.filter (fun it => decide (it.userId ≠ payer))).map (fun it =>
                ⟨otx, payer, it.userId, tx.amount,
                 round2 (tx.amount * jnum it.weight /
                   ((items.filter (fun it => decide (it.userId ≠ payer))).map
                     (fun it => jnum it.weight)).sum),
                 jnum it.weight, SplitStatus.pending⟩)),
            nextSplitId := st.1.nextSplitId +
              (items.filter (fun it => decide (it.userId ≠ payer))).length }) := by
  unfold createWeightedSplitE
  rw [runSuccess_catchE, runStore_catchE]
  unfold runDB
  rw [runStore_catchE]
  unfold createWeightedSplitBody
  dsimp only
  by_cases h1 : payer = "" ∨ otx = "" ∨ items.isEmpty
  · rw [if_pos h1]; left; exact ⟨rfl, rfl⟩
  · rw [if_neg h1]
    by_cases h2 : (items.filter (fun it => decide (it.userId ≠ payer))).isEmpty
    · rw [if_pos h2]; left; exact ⟨rfl, rfl⟩
    · rw [if_neg h2]
      by_cases h2w : (items.filter (fun it => decide (it.userId ≠ payer))).any
          (fun it => match it.weight with
            | .num w => decide (w ≤ 0)
            | _ => true)
      · rw [if_pos h2w]; left; exact ⟨rfl, rfl⟩
      · rw [if_neg h2w]
        cases htx : findTxn st.1 otx with
        | none => left; exact ⟨rfl, rfl⟩
        | some tx =>
          dsimp only
          by_cases h3 : tx.userId ≠ payer
          · rw [if_pos h3]; left; exact ⟨rfl, rfl⟩
          · rw [if_neg h3]
            push_neg at h3
            by_cases h4 : ¬ (items.filter (fun it => decide (it.userId ≠ payer))).all
                (fun it => decide (it.userId ∈ st.1.users))
            · rw [if_pos h4]; left; exact ⟨rfl, rfl⟩
            · rw [if_neg h4]
              cases hmap : mapExcept (items.filter (fun it => decide (it.userId ≠ payer)))
                  (fun it =>
                    mkBillSplitData otx payer it.userId tx.amount
                      (round2 (tx.amount * jnum it.weight /
                        ((items.filter (fun it => decide (it.userId ≠ payer))).map
                          (fun it => jnum it.weight)).sum))
                      (jnum it.weight) .pending) with
              | error e => left; exact ⟨rfl, rfl⟩
              | ok datas =>
                dsimp only
                obtain ⟨hdatas, _⟩ := mapExcept_ok
                  (g := fun it : WeightItem => (⟨otx, payer, it.userId, tx.amount,
                    round2 (tx.amount * jnum it.weight /
                      ((items.filter (fun it => decide (it.userId ≠ payer))).map
                        (fun it => jnum it.weight)).sum),
                    jnum it.weight, SplitStatus.pending⟩ : SplitData))
                  (fun a b hb => (mkBillSplitData_ok_iff.mp hb).2.2.2.2.2.2.2.2) hmap
                have hne : items.filter (fun it => decide (it.userId ≠ payer)) ≠ [] := by
                  intro hcon
                  rw [hcon] at h2
                  exact h2 rfl
                have hw : ∀ it ∈ items.filter (fun it => decide (it.userId ≠ payer)),
                    it.weight = .num (jnum it.weight) ∧ 0 < jnum it.weight := by
                  intro it hit
                  have hfalse : (match it.weight with
                      | .num w => decide (w ≤ 0)
                      | _ => true) = false := by
                    by_contra hcon
                    exact h2w (List.any_eq_true.mpr ⟨it, hit, eq_true_of_ne_false hcon⟩)
                  cases hwv : it.weight with
                  | num w =>
                    rw [hwv] at hfalse
                    exact ⟨rfl, not_le.mp (of_decide_eq_false hfalse)⟩
                  | str s => rw [hwv] at hfalse; cases hfalse
                  | null => rw [hwv] at hfalse; cases hfalse
                obtain ⟨db, fuel⟩ := st
                cases fuel with
                | zero => left; exact ⟨rfl, rfl⟩
                | succ n =>
                  rw [show commitUnit (db, n + 1) (datas.map SqlOp.insertSplit) =
                      .ok (applyUnit db (datas.map SqlOp.insertSplit), n) from rfl]
                  dsimp only
                  right
                  refine ⟨rfl, tx, rfl, h3, hne, hw, ?_⟩
                  show applyUnit db (datas.map SqlOp.insertSplit) = _
                  rw [hdatas, applyUnit_insertSplits, List.length_map]

/-- C6: a successful weighted split over original amount `A` and the
remaining debtor weights `w_i` (all positive) creates one pending row
per debtor whose share is `round2 (A * w_i / Σw)`, rounded
independently with no reconciliation of the residual, and the sum of
the created shares differs from `A` by at most `N * 0.01`. -/
theorem weighted_split_rows (db : DB) (fuel : ℕ) (payer otx : String)
    (items : List WeightItem) (tx : Txn)
    (htx : findTxn db otx = some tx)
    (hs : runSuccess (createWeightedSplitE (db, fuel) payer otx (some items)) = true) :
    tx.userId = payer ∧
    items.filter (fun it => decide (it.userId ≠ payer)) ≠ [] ∧
    (∀ it ∈ items.filter (fun it => decide (it.userId ≠ payer)),
      it.weight = .num (jnum it.weight) ∧ 0 < jnum it.weight) ∧
    (runDB (createWeightedSplitE (db, fuel) payer otx (some items))).billSplits =
      db.billSplits ++ assignIds db.nextSplitId
        ((items.filter (fun it => decide (it.userId ≠ payer))).map (fun it =>
          ⟨otx, payer, it.userId, tx.amount,
           round2 (tx.amount * jnum it.weight /
             ((items.filter (fun it => decide (it.userId ≠ payer))).map
               (fun it => jnum it.weight)).sum),
           jnum it.weight, SplitStatus.pending⟩)) ∧
    ((assignIds db.nextSplitId
        ((items.filter (fun it => decide (it.userId ≠ payer))).map (fun it =>
          ⟨otx, payer, it.userId, tx.amount,
           round2 (tx.amount * jnum it.weight /
             ((items.filter (fun it => decide (it.userId ≠ payer))).map
               (fun it => jnum it.weight)).sum),
           jnum it.weight, SplitStatus.pending⟩))).map SplitRow.shareAmount).sum =
      ((items.filter (fun it => decide (it.userId ≠ payer))).map (fun it =>
        round2 (tx.amount * jnum it.weight /
          ((items.filter (fun it => decide (it.userId ≠ payer))).map
            (fun it => jnum it.weight)).sum))).sum ∧
    |((items.filter (fun it => decide (it.userId ≠ payer))).map (fun it =>
        round2 (tx.amount * jnum it.weight /
          ((items.filter (fun it => decide (it.userId ≠ payer))).map
            (fun it => jnum it.weight)).sum))).sum - tx.amount| ≤
      ((items.filter (fun it => decide (it.userId ≠ payer))).length : ℚ) * (1 / 100) := by
  rcases createWeightedSplitE_cases (db, fuel) payer otx items with ⟨hfail, _⟩ |
    ⟨_, tx', htx', howner, hne, hw, hdb⟩
  · rw [hfail] at hs
    cases hs
  · rw [htx] at htx'
    cases htx'
    set fd := items.filter (fun it => decide (it.userId ≠ payer)) with hfd
    set W := (fd.map (fun it => jnum it.weight)).sum with hW
    have hWpos : 0 < W := by
      rw [hW]
      refine List.sum_pos _ ?_ ?_
      · intro w hwmem
        obtain ⟨it, hit, rfl⟩ := List.mem_map.mp hwmem
        exact (hw it hit).2
      · intro hcon
        exact hne (List.map_eq_nil_iff.mp hcon)
    have hmapshare : (assignIds db.nextSplitId (fd.map (fun it =>
        (⟨otx, payer, it.userId, tx.amount,
          round2 (tx.amount * jnum it.weight / W),
          jnum it.weight, SplitStatus.pending⟩ : SplitData)))).map SplitRow.shareAmount =
        fd.map (fun it => round2 (tx.amount * jnum it.weight / W)) := by
      rw [assignIds_map_share, List.map_map]
      rfl
    have hsum : (fd.map (fun it => tx.amount * jnum it.weight / W)).sum = tx.amount := by
      have hfn : (fun it : WeightItem => tx.amount * jnum it.weight / W) =
          fun it => (tx.amount / W) * jnum it.weight := by
        funext it
        ring
      rw [hfn]
      have hmm : fd.map (fun it => (tx.amount / W) * jnum it.weight) =
          (fd.map (fun it => jnum it.weight)).map (fun w => (tx.amount / W) * w) := by
        rw [List.map_map]
        rfl
      rw [hmm, List.sum_map_mul_left, List.map_id', ← hW,
        div_mul_cancel₀ _ (ne_of_gt hWpos)]
    have hbound : |(fd.map (fun it => round2 (tx.amount * jnum it.weight / W))).sum -
        tx.amount| ≤ (fd.length : ℚ) * (1 / 100) := by
      have hcomp : fd.map (fun it => round2 (tx.amount * jnum it.weight / W)) =
          (fd.map (fun it => tx.amount * jnum it.weight / W)).map round2 := by
        rw [List.map_map]
        rfl
      have hclose := sum_map_round2_close (fd.map (fun it => tx.amount * jnum it.weight / W))
      rw [hsum, List.length_map] at hclose
      rw [hcomp]
      refine le_trans hclose ?_
      have h0 : (0 : ℚ) ≤ (fd.length : ℚ) := Nat.cast_nonneg _
      nlinarith
    exact ⟨howner, hne, hw, by rw [hdb], congrArg List.sum hmapshare, hbound⟩

/-- C6 witness: a weighted split of the 30 TRY payment TXP1 between U2
(weight 2) and U3 (weight 1): shares 20.00 and 10.00, residual 0. -/
theorem weighted_split_rows_witness :
    findTxn db0 "TXP1" = some ⟨"TXP1", "U1", some "M1", 30, "TRY", .payment, .ok, {}⟩ ∧
    runSuccess (createWeightedSplitE (db0, 10) "U1" "TXP1"
      (some [⟨"U2", .num 2⟩, ⟨"U3", .num 1⟩])) = true ∧
    (Txn.userId ⟨"TXP1", "U1", some "M1", 30, "TRY", .payment, .ok, {}⟩ = "U1" ∧
     ([⟨"U2", .num 2⟩, ⟨"U3", .num 1⟩] : List WeightItem).filter
       (fun it => decide (it.userId ≠ "U1")) ≠ [] ∧
     (∀ it ∈ ([⟨"U2", .num 2⟩, ⟨"U3", .num 1⟩] : List WeightItem).filter
         (fun it => decide (it.userId ≠ "U1")),
       it.weight = .num (jnum it.weight) ∧ 0 < jnum it.weight) ∧
     (runDB (createWeightedSplitE (db0, 10) "U1" "TXP1"
         (some [⟨"U2", .num 2⟩, ⟨"U3", .num 1⟩]))).billSplits =
       db0.billSplits ++ assignIds db0.nextSplitId
         ((([⟨"U2", .num 2⟩, ⟨"U3", .num 1⟩] : List WeightItem).filter
             (fun it => decide (it.userId ≠ "U1"))).map (fun it =>
           ⟨"TXP1", "U1", it.userId, (30 : ℚ),
            round2 ((30 : ℚ) * jnum it.weight /
              ((([⟨"U2", .num 2⟩, ⟨"U3", .num 1⟩] : List WeightItem).filter
                  (fun it => decide (it.userId ≠ "U1"))).map
                (fun it => jnum it.weight)).sum),
            jnum it.weight, SplitStatus.pending⟩)) ∧
     ((assignIds db0.nextSplitId
         ((([⟨"U2", .num 2⟩, ⟨"U3", .num 1⟩] : List WeightItem).filter
             (fun it => decide (it.userId ≠ "U1"))).map (fun it =>
           ⟨"TXP1", "U1", it.userId, (30 : ℚ),
            round2 ((30 : ℚ) * jnum it.weight /
              ((([⟨"U2", .num 2⟩, ⟨"U3", .num 1⟩] : List WeightItem).filter
                  (fun it => decide (it.userId ≠ "U1"))).map
                (fun it => jnum it.weight)).sum),
            jnum it.weight, SplitStatus.pending⟩))).map SplitRow.shareAmount).sum =
       ((([⟨"U2", .num 2⟩, ⟨"U3", .num 1⟩] : List WeightItem).filter
           (fun it => decide (it.userId ≠ "U1"))).map (fun it =>
         round2 ((30 : ℚ) * jnum it.weight /
           ((([⟨"U2", .num 2⟩, ⟨"U3", .num 1⟩] : List WeightItem).filter
               (fun it => decide (it.userId ≠ "U1"))).map
             (fun it => jnum it.weight)).sum))).sum ∧
     |((([⟨"U2", .num 2⟩, ⟨"U3", .num 1⟩] : List WeightItem).filter
          (fun it => decide (it.userId ≠ "U1"))).map (fun it =>
        round2 ((30 : ℚ) * jnum it.weight /
          ((([⟨"U2", .num 2⟩, ⟨"U3", .num 1⟩] : List WeightItem).filter
              (fun it => decide (it.userId ≠ "U1"))).map
            (fun it => jnum it.weight)).sum))).sum - (30 : ℚ)| ≤
       (((([⟨"U2", .num 2⟩, ⟨"U3", .num 1⟩] : List WeightItem).filter
           (fun it => decide (it.userId ≠ "U1"))).length : ℕ) : ℚ) * (1 / 100)) :=
  ⟨by decide, by decide,
   weighted_split_rows db0 10 "U1" "TXP1" [⟨"U2", .num 2⟩, ⟨"U3", .num 1⟩]
     ⟨"TXP1", "U1", some "M1", 30, "TRY", .payment, .ok, {}⟩
     (by decide) (by decide)⟩

/-- C8 counterexample: a percent rule with rate 1 and a cap of 0.  The
claim clamps to any set cap, so a 5 TRY payment should earn 0; the code
tests `rule.cap &&`, treats the zero cap as unset, and credits 5. -/
theorem cashback_cap_zero_not_clamped :
    calculateCashbackAmount
      ⟨"CBX", "percent", "cafe", 1, 0, some 0, false, none, none, true⟩ 5 = 5 ∧
    specCashbackAmount
      ⟨"CBX", "percent", "cafe", 1, 0, some 0, false, none, none, true⟩ 5 = 0 ∧
    calculateCashbackAmount
        ⟨"CBX", "percent", "cafe", 1, 0, some 0, false, none, none, true⟩ 5 ≠
      specCashbackAmount
        ⟨"CBX", "percent", "cafe", 1, 0, some 0, false, none, none, true⟩ 5 := by
  decide

/-- C8 amended: for percent rules the credit is `amount × rate` clamped
to the cap when a NONZERO cap is set (an absent or zero cap does not
clamp, by JS truthiness); for flat rules it is the fixed flat amount
independent of the payment; the result is rounded to 2 decimal places
half-up. -/
theorem cashback_amount_formula :
    (∀ (rule : Rule) (a c : ℚ), rule.rule_type = "percent" → rule.cap = some c →
      c ≠ 0 → calculateCashbackAmount rule a = round2 (min (a * rule.rate) c)) ∧
    (∀ (rule : Rule) (a : ℚ), rule.rule_type = "percent" →
      (rule.cap = none ∨ rule.cap = some 0) →
      calculateCashbackAmount rule a = round2 (a * rule.rate)) ∧
    (∀ (rule : Rule) (a : ℚ), rule.rule_type = "flat" →
      calculateCashbackAmount rule a = round2 rule.flat_amount) := by
  refine ⟨?_, ?_, ?_⟩
  · intro rule a c hp hc hc0
    unfold calculateCashbackAmount
    rw [if_pos hp, hc]
    dsimp only
    rcases lt_or_le c (a * rule.rate) with h | h
    · rw [if_pos ⟨hc0, h⟩, min_eq_right (le_of_lt h)]
    · rw [if_neg (fun hcon => absurd h (not_le.mpr hcon.2)), min_eq_left h]
  · intro rule a hp hc
    unfold calculateCashbackAmount
    rw [if_pos hp]
    rcases hc with hc | hc
    · rw [hc]
    · rw [hc]
      dsimp only
      rw [if_neg (fun hcon => hcon.1 rfl)]
  · intro rule a hf
    unfold calculateCashbackAmount
    rw [if_neg (by rw [hf]; decide), if_pos hf]

/-- C8 witness: the demo 5 percent cafe rule capped at 20 on a 500 TRY
payment (clamped to 20), the same rule uncapped on 30 TRY (1.50), and a
20 TRY flat rule. -/
theorem cashback_amount_formula_witness :
    (Rule.rule_type ⟨"CB1", "percent", "cafe", 1/20, 0, some 20, false,
        some 0, some 100, true⟩ = "percent" ∧
     calculateCashbackAmount ⟨"CB1", "percent", "cafe", 1/20, 0, some 20, false,
        some 0, some 100, true⟩ 500 = round2 (min (500 * (1/20)) 20)) ∧
    (calculateCashbackAmount ⟨"CBN", "percent", "cafe", 1/20, 0, none, false,
        none, none, true⟩ 30 = round2 (30 * (1/20))) ∧
    (calculateCashbackAmount ⟨"CBF", "flat", "any", 0, 20, none, true,
        none, none, true⟩ 7 = round2 20) :=
  ⟨⟨rfl, cashback_amount_formula.1
      ⟨"CB1", "percent", "cafe", 1/20, 0, some 20, false, some 0, some 100, true⟩
      500 20 rfl rfl (by decide)⟩,
   cashback_amount_formula.2.1
     ⟨"CBN", "percent", "cafe", 1/20, 0, none, false, none, none, true⟩
     30 rfl (Or.inl rfl),
   cashback_amount_formula.2.2
     ⟨"CBF", "flat", "any", 0, 20, none, true, none, none, true⟩ 7 rfl⟩

/-- C9 counterexample: topping up wallet U1 (balance 250) with 0.001
succeeds and stores the balance 250.001, which has three decimal
places: the service-layer `UPDATE wallets SET balance = balance + ?`
applies the raw amount with no 2-decimal rounding. -/
theorem topup_breaks_two_decimals :
    runSuccess (topUpWalletE (db0, 5) "U1" (.num (1/1000)) "tt") = true ∧
    balOf (runDB (topUpWalletE (db0, 5) "U1" (.num (1/1000)) "tt")) "U1" =
      250001/1000 ∧
    ¬ has2dp (balOf (runDB (topUpWalletE (db0, 5) "U1" (.num (1/1000)) "tt")) "U1") := by
  decide

theorem twodp_updateBalance_add {l : List Wallet} {uid : String} {q : ℚ}
    (h : ∀ w ∈ l, has2dp w.balance) (hq : has2dp q) :
    ∀ w ∈ updateBalance l uid (fun b => b + q), has2dp w.balance := by
  intro w' hw'
  obtain ⟨w, hw, rfl⟩ := mem_updateBalance hw'
  split
  · exact has2dp_add (h w hw) hq
  · exact h w hw

theorem twodp_updateBalance_sub {l : List Wallet} {uid : String} {q : ℚ}
    (h : ∀ w ∈ l, has2dp w.balance) (hq : has2dp q) :
    ∀ w ∈ updateBalance l uid (fun b => b - q), has2dp w.balance := by
  intro w' hw'
  obtain ⟨w, hw, rfl⟩ := mem_updateBalance hw'
  split
  · exact has2dp_sub (h w hw) hq
  · exact h w hw

theorem transferMoneyE_2dp (st : Store) (f t : String) (a : JSValue) (so si : String)
    (hi : Inv2dp st.1) (ha : ∀ q, a = .num q → has2dp q) :
    Inv2dp (runDB (transferMoneyE st f t a so si)) := by
  rcases transferMoneyE_cases st f t a so si with ⟨_, hst⟩ |
    ⟨_, q, fw, tw, haq, _, _, _, _, _, _, _, hst, _⟩
  · unfold runDB
    rw [hst]
    exact hi
  · unfold runDB
    rw [hst]
    refine ⟨?_, hi.2⟩
    show ∀ w ∈ updateBalance (updateBalance st.1.wallets f (fun b => b - q)) t
      (fun b => b + q), has2dp w.balance
    exact twodp_updateBalance_add (twodp_updateBalance_sub hi.1 (ha q haq)) (ha q haq)

theorem processPaymentE_2dp (st : Store) (u m : String) (a : JSValue) (sfx : String)
    (hi : Inv2dp st.1) (ha : ∀ q, a = .num q → has2dp q) :
    Inv2dp (runDB (processPaymentE st u m a sfx)) := by
  rcases processPaymentE_cases st u m a sfx with ⟨_, hst⟩ |
    ⟨_, q, w, haq, _, _, _, _, _, hst, _⟩
  · unfold runDB
    rw [hst]
    exact hi
  · unfold runDB
    rw [hst]
    refine ⟨?_, hi.2⟩
    show ∀ w ∈ updateBalance st.1.wallets u (fun b => b - q), has2dp w.balance
    exact twodp_updateBalance_sub hi.1 (ha q haq)

theorem topUpWalletE_2dp (st : Store) (u : String) (a : JSValue) (sfx : String)
    (hi : Inv2dp st.1) (ha : ∀ q, a = .num q → has2dp q) :
    Inv2dp (runDB (topUpWalletE st u a sfx)) := by
  rcases topUpWalletE_cases st u a sfx with ⟨_, hst⟩ | ⟨_, q, w, haq, _, _, hst, _⟩
  · unfold runDB
    rw [hst]
    exact hi
  · unfold runDB
    rw [hst]
    refine ⟨?_, hi.2⟩
    show ∀ w ∈ updateBalance st.1.wallets u (fun b => b + q), has2dp w.balance
    exact twodp_updateBalance_add hi.1 (ha q haq)

theorem processQRPaymentE_2dp (st : Store) (u : String) (qrData : QrPayload)
    (nowMs : ℚ) (sfx : String) (hi : Inv2dp st.1)
    (ha : ∀ info q, qrInfoOf qrData = some info → info.amount = some q → has2dp q) :
    Inv2dp (runDB (processQRPaymentE st u qrData nowMs sfx)) := by
  rcases processQRPaymentE_cases st u qrData nowMs sfx with ⟨_, hst⟩ |
    ⟨info, a, mid, hinfo, hamount, _, _, hst⟩
  · unfold runDB
    rw [hst]
    exact hi
  · unfold runDB
    rw [hst]
    refine processPaymentE_2dp st u mid (.num a) sfx hi ?_
    intro q hq
    cases hq
    exact ha info a hinfo hamount

theorem settleBillSplitE_2dp (st : Store) (sid : ℕ) (payer so si : String)
    (hi : Inv2dp st.1) : Inv2dp (runDB (settleBillSplitE st sid payer so si)) := by
  rcases settleBillSplitE_cases st sid payer so si with ⟨_, hst⟩ |
    ⟨s, fw, hsfind, hdeb, _, _, _, _, hrun⟩
  · unfold runDB
    rw [hst]
    exact hi
  · have hshare : has2dp s.shareAmount :=
      hi.2 s (List.mem_of_find?_eq_some hsfind)
    have hx : Inv2dp (applyUnit st.1
        (settleXferUnit s.debtorUserId s.payerUserId s.shareAmount so si)) := by
      refine ⟨?_, hi.2⟩
      show ∀ w ∈ updateBalance (updateBalance st.1.wallets s.debtorUserId
        (fun b => b - s.shareAmount)) s.payerUserId
        (fun b => b + s.shareAmount), has2dp w.balance
      exact twodp_updateBalance_add (twodp_updateBalance_sub hi.1 hshare) hshare
    rcases hrun with ⟨_, hdb⟩ | ⟨_, hdb⟩
    · rw [hdb]
      exact hx
    · rw [hdb]
      refine ⟨hx.1, ?_⟩
      show ∀ s' ∈ (applyUnit st.1 (settleXferUnit s.debtorUserId s.payerUserId
        s.shareAmount so si)).billSplits.map (fun r =>
          if r.splitId = sid then { r with status := SplitStatus.settled } else r),
        has2dp s'.shareAmount
      intro s' hs'
      obtain ⟨r, hr, rfl⟩ := List.mem_map.mp hs'
      have hr2 := hx.2 r hr
      split
      · exact hr2
      · exact hr2

theorem calculateAndApplyCashbackE_2dp (st : Store) (u m : String) (a : ℚ)
    (ptx : String) (today : ℕ) (gen : ℕ → String) (hi : Inv2dp st.1) :
    Inv2dp (runDB (calculateAndApplyCashbackE st u m a ptx today gen)) :=
  CbReach_inv2dp (calculateAndApplyCashbackE_reach st u m a ptx today gen) hi

/-- The externally supplied amounts of one operation all have at most
two decimal places (split settlement and cashback take no external
amount: the settled share is read from the store, the cashback credit
is rounded by the engine). -/
def opAmounts2dp : Op → Prop
  | .transfer _ _ a _ _ _ => ∀ q, a = .num q → has2dp q
  | .payment _ _ a _ _ => ∀ q, a = .num q → has2dp q
  | .topup _ a _ _ => ∀ q, a = .num q → has2dp q
  | .qr _ qrData _ _ _ =>
      ∀ info q, qrInfoOf qrData = some info → info.amount = some q → has2dp q
  | .settle _ _ _ _ _ => True
  | .cashback _ _ _ _ _ _ _ => True

theorem execOp_2dp (db : DB) (op : Op) (hi : Inv2dp db) (ha : opAmounts2dp op) :
    Inv2dp (execOp db op) := by
  cases op with
  | transfer f t a so si fuel => exact transferMoneyE_2dp (db, fuel) f t a so si hi ha
  | payment u m a sfx fuel => exact processPaymentE_2dp (db, fuel) u m a sfx hi ha
  | topup u a sfx fuel => exact topUpWalletE_2dp (db, fuel) u a sfx hi ha
  | qr u qrData nowMs sfx fuel =>
      exact processQRPaymentE_2dp (db, fuel) u qrData nowMs sfx hi ha
  | settle sid payer so si fuel => exact settleBillSplitE_2dp (db, fuel) sid payer so si hi
  | cashback u m a ptx today gen fuel =>
      exact calculateAndApplyCashbackE_2dp (db, fuel) u m a ptx today gen hi

/-- C9 amended: the domain model's `Wallet.credit` / `Wallet.debit`
round the stored balance to 2 decimal places, but the service-layer SQL
updates apply the raw amount without rounding; balances (and stored
shares) therefore keep at most 2 decimal places only as long as every
externally supplied amount has at most 2 decimal places — an amount
with more decimals is stored as-is (see the counterexample). -/
theorem two_decimal_rounding :
    (∀ (w : Wallet) (a : ℚ) (w' : Wallet), walletCredit w a = .ok w' →
      has2dp w'.balance) ∧
    (∀ (w : Wallet) (a : ℚ) (w' : Wallet), walletDebit w a = .ok w' →
      has2dp w'.balance) ∧
    (∀ (db : DB) (ops : List Op), Inv2dp db → (∀ op ∈ ops, opAmounts2dp op) →
      Inv2dp (runOps db ops)) := by
  refine ⟨?_, ?_, ?_⟩
  · intro w a w' h
    unfold walletCredit at h
    split_ifs at h
    cases h
    exact has2dp_round2 _
  · intro w a w' h
    unfold walletDebit at h
    split_ifs at h
    cases h
    exact has2dp_round2 _
  · intro db ops hi ha
    induction ops generalizing db with
    | nil => exact hi
    | cons op rest ih =>
      exact ih (execOp db op) (execOp_2dp db op hi (ha op (List.mem_cons_self op rest)))
        (fun o ho => ha o (List.mem_cons_of_mem _ ho))

/-- C9 witness: the domain credit and debit on a third-of-a-TRY balance
round to 2 decimals, and a demo sequence with 2-decimal inputs keeps
every stored balance at 2 decimals. -/
theorem two_decimal_rounding_witness :
    (walletCredit ⟨"U1", 1/3, "TRY"⟩ 5 = .ok ⟨"U1", 533/100, "TRY"⟩ ∧
      has2dp (Wallet.balance ⟨"U1", 533/100, "TRY"⟩)) ∧
    (walletDebit ⟨"U1", 1/3, "TRY"⟩ (1/4) = .ok ⟨"U1", 8/100, "TRY"⟩ ∧
      has2dp (Wallet.balance ⟨"U1", 8/100, "TRY"⟩)) ∧
    (Inv2dp db0 ∧
      Inv2dp (runOps db0
        [.topup "U1" (.num (51/4)) "t1" 3,
         .transfer "U1" "U2" (.num (1/4)) "a1" "b1" 3,
         .settle 1 "U2" "s1" "s2" 3,
         .cashback "U2" "M1" 15 "TXP1" 5 (fun _ => "cb") 4])) :=
  ⟨⟨rfl,
    two_decimal_rounding.1 ⟨"U1", 1/3, "TRY"⟩ 5 ⟨"U1", 533/100, "TRY"⟩ rfl⟩,
   ⟨rfl,
    two_decimal_rounding.2.1 ⟨"U1", 1/3, "TRY"⟩ (1/4) ⟨"U1", 8/100, "TRY"⟩ rfl⟩,
   ⟨by decide,
    two_decimal_rounding.2.2 db0
      [.topup "U1" (.num (51/4)) "t1" 3,
       .transfer "U1" "U2" (.num (1/4)) "a1" "b1" 3,
       .settle 1 "U2" "s1" "s2" 3,
       .cashback "U2" "M1" 15 "TXP1" 5 (fun _ => "cb") 4]
      (by decide)
      (by
        intro op hop
        rcases List.mem_cons.mp hop with rfl | hop
        · intro q hq; cases hq; decide
        · rcases List.mem_cons.mp hop with rfl | hop
          · intro q hq; cases hq; decide
          · rcases List.mem_cons.mp hop with rfl | hop
            · trivial
            · rcases List.mem_cons.mp hop with rfl | hop
              · trivial
              · cases hop)⟩⟩

/-! ## First-time-only cashback gating -/

/-- Result of a cashback run (the catch-all default when the run threw,
which `calculateAndApplyCashbackE` never does). -/
def runCbRes (x : Except (String × Store) (CashbackRes × Store)) : CashbackRes :=
  match x with
  | .ok (r, _) => r
  | .error _ => { cashbackAmount := 0, applied := false }

theorem CbReach_txns {u : String} {a b : DB} (h : CbReach u a b) :
    ∃ ext, b.transactions = a.transactions ++ ext := by
  induction h with
  | refl => exact ⟨[], by simp⟩
  | ins db' t h ih =>
    obtain ⟨ext, hext⟩ := ih
    refine ⟨ext ++ [t], ?_⟩
    show db'.transactions ++ [t] = _
    rw [hext, List.append_assoc]
  | cred db' cb h0 h2dp h ih => exact ih

theorem countPrior_ge_one {dbx : DB} {u rid : String} {t : Txn}
    (hmem : t ∈ dbx.transactions) (hu : t.userId = u)
    (hty : t.ttype = TxType.cashback) (hrid : t.meta.rule_id = some rid) :
    1 ≤ countPriorCashback dbx u rid := by
  unfold countPriorCashback
  have hin : t ∈ dbx.transactions.filter (fun t =>
      decide (t.userId = u) && decide (t.ttype = TxType.cashback) &&
      decide (t.meta.rule_id = some rid)) :=
    List.mem_filter.mpr ⟨hmem, by simp [hu, hty, hrid]⟩
  exact List.length_pos.mpr (List.ne_nil_of_mem hin)

theorem countPrior_le_of_append {a b : DB} (u rid : String) (ext : List Txn)
    (h : b.transactions = a.transactions ++ ext) :
    countPriorCashback a u rid ≤ countPriorCashback b u rid := by
  unfold countPriorCashback
  rw [h, List.filter_append, List.length_append]
  exact Nat.le_add_right _ _

theorem countPrior_eq_of_append {a b : DB} {u rid : String} {ext : List Txn}
    (h : b.transactions = a.transactions ++ ext)
    (hext : ∀ t ∈ ext, (decide (t.userId = u) && decide (t.ttype = TxType.cashback) &&
      decide (t.meta.rule_id = some rid)) = false) :
    countPriorCashback b u rid = countPriorCashback a u rid := by
  unfold countPriorCashback
  rw [h, List.filter_append]
  have hnil : List.filter (fun t => decide (t.userId = u) &&
      decide (t.ttype = TxType.cashback) &&
      decide (t.meta.rule_id = some rid)) ext = [] := by
    rw [List.filter_eq_nil_iff]
    intro t ht
    simp [hext t ht]
  rw [hnil, List.append_nil]

/-- Every rule id the loop reports beyond its accumulator has a matching
cashback record in the final store. -/
theorem cashbackLoop_applied_recorded (u m : String) (a : ℚ) (ptx : String)
    (gen : ℕ → String) (rid : String) :
    ∀ (rules : List Rule) (st : Store) (k : ℕ) (total : ℚ)
      (applied0 : List (String × ℚ)) (tot : ℚ) (applied : List (String × ℚ))
      (st' : Store),
      cashbackLoop st u m a ptx gen rules k total applied0 = .ok ((tot, applied), st') →
      rid ∈ applied.map Prod.fst →
      rid ∈ applied0.map Prod.fst ∨ 1 ≤ countPriorCashback st'.1 u rid := by
  intro rules
  induction rules with
  | nil =>
    intro st k total applied0 tot applied st' hok hmem
    unfold cashbackLoop at hok
    cases hok
    exact Or.inl hmem
  | cons r rest ih =>
    intro st k total applied0 tot applied st' hok hmem
    unfold cashbackLoop at hok
    by_cases hcb : 0 < calculateCashbackAmount r a
    · rw [if_pos hcb] at hok
      cases hmk : mkTxn ("TX_CB_" ++ gen k) u (calculateCashbackAmount r a) "TRY"
          .cashback .ok (some m)
          { rule_id := some r.rule_id, original_tx_id := some ptx } with
      | error e =>
        rw [hmk] at hok
        dsimp only at hok
        cases hok
      | ok t =>
        rw [hmk] at hok
        dsimp only at hok
        obtain ⟨db, fuel⟩ := st
        cases fuel with
        | zero =>
          rw [show commitUnit (db, 0) [SqlOp.insertTxn t] =
              .error ("storage failure", (db, 0)) from rfl] at hok
          dsimp only at hok
          cases hok
        | succ n =>
          rw [show commitUnit (db, n + 1) [SqlOp.insertTxn t] =
              .ok (applyUnit db [SqlOp.insertTxn t], n) from rfl] at hok
          dsimp only at hok
          cases n with
          | zero =>
            rw [show commitUnit (applyUnit db [SqlOp.insertTxn t], 0)
                  [SqlOp.credit u (calculateCashbackAmount r a)] =
                .error ("storage failure", (applyUnit db [SqlOp.insertTxn t], 0))
                from rfl] at hok
            dsimp only at hok
            cases hok
          | succ n2 =>
            rw [show commitUnit (applyUnit db [SqlOp.insertTxn t], n2 + 1)
                  [SqlOp.credit u (calculateCashbackAmount r a)] =
                .ok (applyUnit (applyUnit db [SqlOp.insertTxn t])
                      [SqlOp.credit u (calculateCashbackAmount r a)], n2) from rfl] at hok
            dsimp only at hok
            rcases ih _ _ _ _ _ _ _ hok hmem with hin | hcount
            · rw [List.map_append] at hin
              rcases List.mem_append.mp hin with h0 | h1
              · exact Or.inl h0
              · right
                have hridr : rid = r.rule_id := by simpa using h1
                have htin : t ∈ (applyUnit (applyUnit db [SqlOp.insertTxn t])
                    [SqlOp.credit u (calculateCashbackAmount r a)]).transactions := by
                  show t ∈ db.transactions ++ [t]
                  exact List.mem_append_right _ (by simp)
                have ht := mkTxn_ok_iff.mp hmk
                have h1c : 1 ≤ countPriorCashback
                    (applyUnit (applyUnit db [SqlOp.insertTxn t])
                      [SqlOp.credit u (calculateCashbackAmount r a)]) u rid := by
                  refine countPrior_ge_one htin ?_ ?_ ?_
                  · rw [ht.2.2.2]
                  · rw [ht.2.2.2]
                  · rw [ht.2.2.2, hridr]
                have hreach := cashbackLoop_reach u m a ptx gen rest
                  (applyUnit (applyUnit db [SqlOp.insertTxn t])
                    [SqlOp.credit u (calculateCashbackAmount r a)], n2) (k + 1)
                  (total + calculateCashbackAmount r a)
                  (applied0 ++ [(r.rule_id, calculateCashbackAmount r a)])
                rw [hok] at hreach
                obtain ⟨ext, hext⟩ := CbReach_txns hreach
                exact le_trans h1c (countPrior_le_of_append u rid ext hext)
            · exact Or.inr hcount
    · rw [if_neg hcb] at hok
      exact ih _ _ _ _ _ _ _ hok hmem

/-- When no rule in the list carries the id `rid`, the loop neither
reports a credit for `rid` nor changes the count of `rid`-tagged
cashback records, whatever the storage outcome. -/
theorem cashbackLoop_no_rid (u m : String) (a : ℚ) (ptx : String)
    (gen : ℕ → String) (rid : String) :
    ∀ (rules : List Rule) (st : Store) (k : ℕ) (total : ℚ)
      (applied0 : List (String × ℚ)),
      (∀ r ∈ rules, r.rule_id ≠ rid) →
      countPriorCashback
          (runDB (cashbackLoop st u m a ptx gen rules k total applied0)) u rid =
        countPriorCashback st.1 u rid ∧
      (∀ (tot : ℚ) (applied : List (String × ℚ)) (st' : Store),
        cashbackLoop st u m a ptx gen rules k total applied0 = .ok ((tot, applied), st') →
        rid ∈ applied.map Prod.fst → rid ∈ applied0.map Prod.fst) := by
  intro rules
  induction rules with
  | nil =>
    intro st k total applied0 hr
    refine ⟨rfl, ?_⟩
    intro tot applied st' hok hmem
    unfold cashbackLoop at hok
    cases hok
    exact hmem
  | cons r rest ih =>
    intro st k total applied0 hr
    have hrhead : r.rule_id ≠ rid := hr r (List.mem_cons_self r rest)
    have hrrest : ∀ r' ∈ rest, r'.rule_id ≠ rid :=
      fun r' h => hr r' (List.mem_cons_of_mem _ h)
    unfold cashbackLoop
    by_cases hcb : 0 < calculateCashbackAmount r a
    · rw [if_pos hcb]
      cases hmk : mkTxn ("TX_CB_" ++ gen k) u (calculateCashbackAmount r a) "TRY"
          .cashback .ok (some m)
          { rule_id := some r.rule_id, original_tx_id := some ptx } with
      | error e =>
        dsimp only
        refine ⟨rfl, ?_⟩
        intro tot applied st' hok _
        cases hok
      | ok t =>
        dsimp only
        obtain ⟨db, fuel⟩ := st
        have ht := mkTxn_ok_iff.mp hmk
        have hrid2 : t.meta.rule_id = some r.rule_id := by rw [ht.2.2.2]
        have htext : ∀ t' ∈ [t], (decide (t'.userId = u) &&
            decide (t'.ttype = TxType.cashback) &&
            decide (t'.meta.rule_id = some rid)) = false := by
          intro t' ht'
          rw [List.mem_singleton.mp ht', hrid2,
            show decide (some r.rule_id = some rid) = false from
              decide_eq_false (fun hcon => hrhead (Option.some.inj hcon)),
            Bool.and_false]
        cases fuel with
        | zero =>
          rw [show commitUnit (db, 0) [SqlOp.insertTxn t] =
              .error ("storage failure", (db, 0)) from rfl]
          dsimp only
          refine ⟨rfl, ?_⟩
          intro tot applied st' hok _
          cases hok
        | succ n =>
          rw [show commitUnit (db, n + 1) [SqlOp.insertTxn t] =
              .ok (applyUnit db [SqlOp.insertTxn t], n) from rfl]
          dsimp only
          cases n with
          | zero =>
            rw [show commitUnit (applyUnit db [SqlOp.insertTxn t], 0)
                  [SqlOp.credit u (calculateCashbackAmount r a)] =
                .error ("storage failure", (applyUnit db [SqlOp.insertTxn t], 0))
                from rfl]
            dsimp only
            constructor
            · show countPriorCashback (applyUnit db [SqlOp.insertTxn t]) u rid =
                countPriorCashback db u rid
              exact countPrior_eq_of_append (by rfl) htext
            · intro tot applied st' hok _
              cases hok
          | succ n2 =>
            rw [show commitUnit (applyUnit db [SqlOp.insertTxn t], n2 + 1)
                  [SqlOp.credit u (calculateCashbackAmount r a)] =
                .ok (applyUnit (applyUnit db [SqlOp.insertTxn t])
                      [SqlOp.credit u (calculateCashbackAmount r a)], n2) from rfl]
            dsimp only
            obtain ⟨ihcount, ihmem⟩ := ih
              (applyUnit (applyUnit db [SqlOp.insertTxn t])
                [SqlOp.credit u (calculateCashbackAmount r a)], n2) (k + 1)
              (total + calculateCashbackAmount r a)
              (applied0 ++ [(r.rule_id, calculateCashbackAmount r a)]) hrrest
            constructor
            · rw [ihcount]
              show countPriorCashback (applyUnit db [SqlOp.insertTxn t]) u rid =
                countPriorCashback db u rid
              exact countPrior_eq_of_append (by rfl) htext
            · intro tot applied st' hok hmem
              have := ihmem tot applied st' hok hmem
              rw [List.map_append] at this
              rcases List.mem_append.mp this with h0 | h1
              · exact h0
              · have hridr : rid = r.rule_id := by simpa using h1
                exact absurd hridr.symm hrhead
    · rw [if_neg hcb]
      exact ih st k total applied0 hrrest

/-- A rule id reported in the body's `appliedRules` has a matching
cashback record in the body's final store. -/
theorem cashbackBody_applied_recorded (st : Store) (u m : String) (a : ℚ)
    (ptx : String) (today : ℕ) (gen : ℕ → String) (rid : String)
    (res : CashbackRes) (st' : Store)
    (hb : calculateAndApplyCashbackBody st u m a ptx today gen = .ok (res, st'))
    (hmem : rid ∈ res.appliedRules.map Prod.fst) :
    1 ≤ countPriorCashback st'.1 u rid := by
  unfold calculateAndApplyCashbackBody at hb
  cases hm : st.1.merchants.find? (fun mm => decide (mm.merchant_id = m)) with
  | none =>
    rw [hm] at hb
    dsimp only at hb
    cases hb
    simp at hmem
  | some merchant =>
    rw [hm] at hb
    dsimp only at hb
    cases hr : getApplicableCashbackRules st.1 u merchant.category today with
    | nil =>
      rw [hr] at hb
      dsimp only at hb
      cases hb
      simp at hmem
    | cons r rs =>
      rw [hr] at hb
      dsimp only at hb
      cases hloop : cashbackLoop st u m a ptx gen (r :: rs) 0 0 [] with
      | error e =>
        rw [hloop] at hb
        dsimp only at hb
        cases hb
      | ok v =>
        obtain ⟨⟨total, applied⟩, stL⟩ := v
        rw [hloop] at hb
        dsimp only at hb
        cases hb
        rcases cashbackLoop_applied_recorded u m a ptx gen rid (r :: rs) st 0 0 []
          total applied st' hloop hmem with h0 | h1
        · simp at h0
        · exact h1

/-- With a prior record for `rid` already present and every stored rule
carrying `rid` marked first-time-only, the body neither reports `rid`
as applied nor changes the count of `rid`-tagged records — on success
or on a throw. -/
theorem cashbackBody_no_second (st : Store) (u m : String) (a : ℚ)
    (ptx : String) (today : ℕ) (gen : ℕ → String) (rid : String)
    (hprior : 1 ≤ countPriorCashback st.1 u rid)
    (hft : ∀ r ∈ st.1.cashbackRules, r.rule_id = rid → r.first_time_only = true) :
    (∀ (res : CashbackRes) (st' : Store),
      calculateAndApplyCashbackBody st u m a ptx today gen = .ok (res, st') →
      rid ∉ res.appliedRules.map Prod.fst ∧
      countPriorCashback st'.1 u rid = countPriorCashback st.1 u rid) ∧
    (∀ (e : String) (st' : Store),
      calculateAndApplyCashbackBody st u m a ptx today gen = .error (e, st') →
      countPriorCashback st'.1 u rid = countPriorCashback st.1 u rid) := by
  have hno : ∀ (cat : String) (r' : Rule),
      r' ∈ getApplicableCashbackRules st.1 u cat today → r'.rule_id ≠ rid := by
    intro cat r' hr' hcon
    unfold getApplicableCashbackRules at hr'
    have h2 := List.mem_filter.mp hr'
    have h1 := List.mem_filter.mp h2.1
    have hftr := hft r' h1.1 hcon
    have h22 : (if r'.first_time_only then
        decide (countPriorCashback st.1 u r'.rule_id = 0) else true) = true := h2.2
    rw [hftr] at h22
    have hcnt : countPriorCashback st.1 u r'.rule_id = 0 :=
      of_decide_eq_true (by simpa using h22)
    rw [hcon] at hcnt
    omega
  constructor
  · intro res st' hb
    unfold calculateAndApplyCashbackBody at hb
    cases hm : st.1.merchants.find? (fun mm => decide (mm.merchant_id = m)) with
    | none =>
      rw [hm] at hb
      dsimp only at hb
      cases hb
      exact ⟨by simp, rfl⟩
    | some merchant =>
      rw [hm] at hb
      dsimp only at hb
      cases hr : getApplicableCashbackRules st.1 u merchant.category today with
      | nil =>
        rw [hr] at hb
        dsimp only at hb
        cases hb
        exact ⟨by simp, rfl⟩
      | cons r rs =>
        rw [hr] at hb
        dsimp only at hb
        have hrules : ∀ r' ∈ r :: rs, r'.rule_id ≠ rid := by
          intro r' hr'
          exact hno merchant.category r' (by rw [hr]; exact hr')
        obtain ⟨hcount, hmem⟩ :=
          cashbackLoop_no_rid u m a ptx gen rid (r :: rs) st 0 0 [] hrules
        cases hloop : cashbackLoop st u m a ptx gen (r :: rs) 0 0 [] with
        | error e =>
          rw [hloop] at hb
          dsimp only at hb
          cases hb
        | ok v =>
          obtain ⟨⟨total, applied⟩, stL⟩ := v
          rw [hloop] at hb
          dsimp only at hb
          cases hb
          constructor
          · intro hin
            have hz := hmem total applied st' hloop hin
            simp at hz
          · rw [hloop] at hcount
            exact hcount
  · intro e st' hb
    unfold calculateAndApplyCashbackBody at hb
    cases hm : st.1.merchants.find? (fun mm => decide (mm.merchant_id = m)) with
    | none =>
      rw [hm] at hb
      dsimp only at hb
      cases hb
    | some merchant =>
      rw [hm] at hb
      dsimp only at hb
      cases hr : getApplicableCashbackRules st.1 u merchant.category today with
      | nil =>
        rw [hr] at hb
        dsimp only at hb
        cases hb
      | cons r rs =>
        rw [hr] at hb
        dsimp only at hb
        have hrules : ∀ r' ∈ r :: rs, r'.rule_id ≠ rid := by
          intro r' hr'
          exact hno merchant.category r' (by rw [hr]; exact hr')
        obtain ⟨hcount, hmem⟩ :=
          cashbackLoop_no_rid u m a ptx gen rid (r :: rs) st 0 0 [] hrules
        cases hloop : cashbackLoop st u m a ptx gen (r :: rs) 0 0 [] with
        | error e2 =>
          obtain ⟨e2a, e2b⟩ := e2
          rw [hloop] at hb
          dsimp only at hb
          cases hb
          rw [hloop] at hcount
          exact hcount
        | ok v =>
          obtain ⟨⟨total, applied⟩, stL⟩ := v
          rw [hloop] at hb
          dsimp only at hb
          cases hb

/-- A first-time-only flat rule on the wildcard category, for the
replay scenario. -/
def ruleFT : Rule :=
  ⟨"CBF", "flat", "any", 0, 20, some 20, true, some 0, some 100, true⟩

/-- `db0` with `ruleFT` as the only cashback rule. -/
def dbFT : DB := { db0 with cashbackRules := [ruleFT] }

/-- C7: first-time-only cashback gating.  (a) A rule marked
`first_time_only` is selected as applicable only when the user has no
prior cashback Transaction whose metadata `rule_id` equals the rule's
id.  (b) Whenever a cashback evaluation reports a rule id among its
applied rules, the final state holds a cashback record tagged with that
id.  (c) Replaying an evaluation from a state that already holds such a
record — all stored rules with that id being first-time-only — reports
no credit from that rule and leaves its record count unchanged, so the
rule produces a cashback credit at most once per user. -/
theorem first_time_only_once :
    (∀ (db : DB) (u cat : String) (today : ℕ) (r : Rule),
      r ∈ getApplicableCashbackRules db u cat today → r.first_time_only = true →
      countPriorCashback db u r.rule_id = 0) ∧
    (∀ (st : Store) (u m : String) (a : ℚ) (ptx : String) (today : ℕ)
      (gen : ℕ → String) (rid : String),
      rid ∈ (runCbRes (calculateAndApplyCashbackE st u m a ptx today gen)).appliedRules.map
          Prod.fst →
      1 ≤ countPriorCashback (runDB (calculateAndApplyCashbackE st u m a ptx today gen))
          u rid) ∧
    (∀ (st : Store) (u m : String) (a : ℚ) (ptx : String) (today : ℕ)
      (gen : ℕ → String) (rid : String),
      1 ≤ countPriorCashback st.1 u rid →
      (∀ r ∈ st.1.cashbackRules, r.rule_id = rid → r.first_time_only = true) →
      rid ∉ (runCbRes (calculateAndApplyCashbackE st u m a ptx today gen)).appliedRules.map
          Prod.fst ∧
      countPriorCashback (runDB (calculateAndApplyCashbackE st u m a ptx today gen)) u rid =
        countPriorCashback st.1 u rid) := by
  refine ⟨?_, ?_, ?_⟩
  · intro db u cat today r hr hft
    unfold getApplicableCashbackRules at hr
    have h22 : (if r.first_time_only then
        decide (countPriorCashback db u r.rule_id = 0) else true) = true :=
      (List.mem_filter.mp hr).2
    rw [hft] at h22
    exact of_decide_eq_true (by simpa using h22)
  · intro st u m a ptx today gen rid hmem
    unfold calculateAndApplyCashbackE catchE at hmem ⊢
    cases hbody : calculateAndApplyCashbackBody st u m a ptx today gen with
    | error e =>
      obtain ⟨e1, e2⟩ := e
      rw [hbody] at hmem
      simp [runCbRes] at hmem
    | ok v =>
      obtain ⟨res, st2⟩ := v
      rw [hbody] at hmem
      exact cashbackBody_applied_recorded st u m a ptx today gen rid res st2 hbody hmem
  · intro st u m a ptx today gen rid hprior hft
    have hno := cashbackBody_no_second st u m a ptx today gen rid hprior hft
    unfold calculateAndApplyCashbackE catchE
    cases hbody : calculateAndApplyCashbackBody st u m a ptx today gen with
    | error e =>
      obtain ⟨e1, e2⟩ := e
      constructor
      · intro hin
        simp [runCbRes] at hin
      · exact hno.2 e1 e2 hbody
    | ok v =>
      obtain ⟨res, st2⟩ := v
      obtain ⟨hnotin, hcnt⟩ := hno.1 res st2 hbody
      constructor
      · intro hin
        exact hnotin hin
      · exact hcnt

/-- C7 witness: the first-time-only flat rule `ruleFT` is applicable in
`dbFT` with no prior record, fires on the first evaluation (leaving a
tagged record), and fires no second time when the same payment is
replayed from the resulting state. -/
theorem first_time_only_once_witness :
    (ruleFT ∈ getApplicableCashbackRules dbFT "U1" "cafe" 5 ∧
      ruleFT.first_time_only = true ∧
      countPriorCashback dbFT "U1" ruleFT.rule_id = 0) ∧
    ("CBF" ∈ (runCbRes (calculateAndApplyCashbackE (dbFT, 5) "U1" "M1" 30 "TXP1" 5
          (fun _ => "w1"))).appliedRules.map Prod.fst ∧
      1 ≤ countPriorCashback (runDB (calculateAndApplyCashbackE (dbFT, 5) "U1" "M1" 30
          "TXP1" 5 (fun _ => "w1"))) "U1" "CBF") ∧
    (1 ≤ countPriorCashback (runDB (calculateAndApplyCashbackE (dbFT, 5) "U1" "M1" 30
          "TXP1" 5 (fun _ => "w1"))) "U1" "CBF" ∧
      (∀ r ∈ (runDB (calculateAndApplyCashbackE (dbFT, 5) "U1" "M1" 30 "TXP1" 5
          (fun _ => "w1"))).cashbackRules, r.rule_id = "CBF" → r.first_time_only = true) ∧
      "CBF" ∉ (runCbRes (calculateAndApplyCashbackE
          (runDB (calculateAndApplyCashbackE (dbFT, 5) "U1" "M1" 30 "TXP1" 5
            (fun _ => "w1")), 5) "U1" "M1" 30 "TXP1" 5
          (fun _ => "w2"))).appliedRules.map Prod.fst ∧
      countPriorCashback (runDB (calculateAndApplyCashbackE
          (runDB (calculateAndApplyCashbackE (dbFT, 5) "U1" "M1" 30 "TXP1" 5
            (fun _ => "w1")), 5) "U1" "M1" 30 "TXP1" 5 (fun _ => "w2"))) "U1" "CBF" =
        countPriorCashback (runDB (calculateAndApplyCashbackE (dbFT, 5) "U1" "M1" 30
          "TXP1" 5 (fun _ => "w1"))) "U1" "CBF") :=
  ⟨⟨by decide, by decide,
    first_time_only_once.1 dbFT "U1" "cafe" 5 ruleFT (by decide) (by decide)⟩,
   ⟨by decide,
    first_time_only_once.2.1 (dbFT, 5) "U1" "M1" 30 "TXP1" 5 (fun _ => "w1") "CBF"
      (by decide)⟩,
   by decide, by decide,
   first_time_only_once.2.2
     (runDB (calculateAndApplyCashbackE (dbFT, 5) "U1" "M1" 30 "TXP1" 5
       (fun _ => "w1")), 5) "U1" "M1" 30 "TXP1" 5 (fun _ => "w2") "CBF"
     (by decide) (by decide)⟩

/-- C10: every public service operation, for every input — malformed
payloads included — and every storage-fault budget, returns a structured
result object instead of propagating an exception: the run is always
`Except.ok`. -/
theorem total_error_handling :
    (∀ (st : Store) (f t : String) (a : JSValue) (so si : String),
      ∃ v, transferMoneyE st f t a so si = .ok v) ∧
    (∀ (st : Store) (u m : String) (a : JSValue) (sfx : String),
      ∃ v, processPaymentE st u m a sfx = .ok v) ∧
    (∀ (st : Store) (u : String) (a : JSValue) (sfx : String),
      ∃ v, topUpWalletE st u a sfx = .ok v) ∧
    (∀ (st : Store) (u : String) (qrData : QrPayload) (nowMs : ℚ) (sfx : String),
      ∃ v, processQRPaymentE st u qrData nowMs sfx = .ok v) ∧
    (∀ (st : Store) (payer otx : String) (ids : Option (List String)),
      ∃ v, createEqualSplitE st payer otx ids = .ok v) ∧
    (∀ (st : Store) (payer otx : String) (ws : Option (List WeightItem)),
      ∃ v, createWeightedSplitE st payer otx ws = .ok v) ∧
    (∀ (st : Store) (sid : ℕ) (payer so si : String),
      ∃ v, settleBillSplitE st sid payer so si = .ok v) ∧
    (∀ (st : Store) (sid : ℕ) (u : String),
      ∃ v, cancelBillSplitE st sid u = .ok v) ∧
    (∀ (st : Store) (u m : String) (a : ℚ) (ptx : String) (today : ℕ)
      (gen : ℕ → String),
      ∃ v, calculateAndApplyCashbackE st u m a ptx today gen = .ok v) := by
  have hcatch : ∀ {α : Type} (x : Except (String × Store) (α × Store)) (d : α),
      ∃ v, catchE x d = .ok v := by
    intro α x d
    cases x with
    | ok v => exact ⟨v, rfl⟩
    | error e =>
      obtain ⟨e1, e2⟩ := e
      exact ⟨(d, e2), rfl⟩
  exact ⟨fun st f t a so si => hcatch _ _,
    fun st u m a sfx => hcatch _ _,
    fun st u a sfx => hcatch _ _,
    fun st u qrData nowMs sfx => hcatch _ _,
    fun st payer otx ids => hcatch _ _,
    fun st payer otx ws => hcatch _ _,
    fun st sid payer so si => hcatch _ _,
    fun st sid u => hcatch _ _,
    fun st u m a ptx today gen => hcatch _ _⟩
